import Mathlib

/-!
PNGExampleXcode: marshaling between PNG row buffers and 32-bit pixels

A shallow embedding of `PNGExampleXcode/main.cpp`.

* A `png_byte` is a natural number below `256`, a `uint32_t` a natural number
  below `2 ^ 32`; every `uint32_t` shift is reduced modulo `2 ^ 32` and every
  store into a `png_byte` modulo `256`, as the C conversions do.
* A row buffer is a `List Nat` of bytes, `row_pointers` a list of row buffers and
  `pixels` a `List Nat` of 32-bit values.  The buffers that `malloc` returns are
  passed in as arguments, with whatever content they happen to have.
* The loop counters `x`, `y`, `pixeli`, `i` and the dimensions `width`, `height`
  are natural numbers: the embedding describes the runs in which none of these
  `int` values leaves the range of `int`.
* A run ends in one of three ways: it reaches the end (`Outcome.done`), it calls
  `abort_` (`Outcome.aborted`), or it reads or writes outside a buffer
  (`Outcome.fault`), which the C code does not check for.
* `allocate_row_pointers`, `free_row_pointers` and `read_png_file` act on the
  global variables (`Globals`); a `Run` gives the globals at the moment the
  function stopped together with the way it stopped.  The answers of `malloc`,
  of the file system and of libpng are arguments (`Malloc`, `PngSource`).
-/

namespace PNGExample

/-! ## Outcomes and loops -/

/-- The calls of `abort_` in lines 83-101 of `read_png_file`, before any metadata
is read. -/
inductive InitError where
  /-- `"[read_png_file] File %s could not be opened for reading"`, line 85. -/
  | notOpened
  /-- `"[read_png_file] File %s is not recognized as a PNG file"`, line 88. -/
  | notPng
  /-- `"[read_png_file] png_create_read_struct failed"`, line 94. -/
  | noReadStruct
  /-- `"[read_png_file] png_create_info_struct failed"`, line 98. -/
  | noInfoStruct
  /-- `"[read_png_file] Error during init_io"`, line 101. -/
  | initFailed
  deriving DecidableEq, Repr

/-- The calls of `abort_` in `allocate_row_pointers`, in `read_png_file` and in the
marshaling of `write_png_file`, one constructor per call. -/
inductive Abort where
  /-- `"[read_png_file] unsupported input format type"`, line 148. -/
  | readUnsupportedFormat
  /-- `"[write_png_file] unsupported input format type"`, line 264. -/
  | writeUnsupportedFormat
  /-- `"[allocate_row_pointers] row_pointers already allocated"`, line 48. -/
  | allocAlready
  /-- `"[allocate_row_pointers] could not allocate %d bytes to store row data"`,
  line 54. -/
  | allocTable
  /-- `"[allocate_row_pointers] could not allocate %d bytes to store row data"`,
  line 61. -/
  | allocRow
  /-- One of the calls in lines 83-101 of `read_png_file`. -/
  | readInit (e : InitError)
  /-- `"[read_png_file] only 8 bit pixel depth PNG is supported"`, line 117. -/
  | readBitDepth
  /-- `"[read_png_file] Error during read_image"`, line 122. -/
  | readImage
  /-- `"[read_png_file] could not allocate %d bytes to store pixel data"`,
  line 133. -/
  | readPixelsAlloc
  deriving DecidableEq, Repr

/-- The text `abort_` prints for each call. -/
def Abort.message : Abort → String
  | .readUnsupportedFormat => "[read_png_file] unsupported input format type"
  | .writeUnsupportedFormat => "[write_png_file] unsupported input format type"
  | .allocAlready => "[allocate_row_pointers] row_pointers already allocated"
  | .allocTable => "[allocate_row_pointers] could not allocate %d bytes to store row data"
  | .allocRow => "[allocate_row_pointers] could not allocate %d bytes to store row data"
  | .readInit .notOpened => "[read_png_file] File %s could not be opened for reading"
  | .readInit .notPng => "[read_png_file] File %s is not recognized as a PNG file"
  | .readInit .noReadStruct => "[read_png_file] png_create_read_struct failed"
  | .readInit .noInfoStruct => "[read_png_file] png_create_info_struct failed"
  | .readInit .initFailed => "[read_png_file] Error during init_io"
  | .readBitDepth => "[read_png_file] only 8 bit pixel depth PNG is supported"
  | .readImage => "[read_png_file] Error during read_image"
  | .readPixelsAlloc => "[read_png_file] could not allocate %d bytes to store pixel data"

/-- How a piece of the program ends. -/
inductive Outcome (α : Type) where
  /-- It ran to its end, leaving the value `a`. -/
  | done (a : α)
  /-- It called `abort_`. -/
  | aborted (e : Abort)
  /-- It accessed memory outside an allocated buffer. -/
  | fault
  deriving DecidableEq, Repr

/-- Sequencing: the second part runs only if the first one ran to its end. -/
def Outcome.bind {α β : Type} : Outcome α → (α → Outcome β) → Outcome β
  | .done a, f => f a
  | .aborted e, _ => .aborted e
  | .fault, _ => .fault

/-- The loop `for (i = 0; i < n; i++) body`: the state after `n + 1` rounds is the
body at index `n` run on the state after `n` rounds. -/
def forLoop {σ : Type} (body : Nat → σ → Outcome σ) : Nat → σ → Outcome σ
  | 0, s => .done s
  | n + 1, s => (forLoop body n s).bind (body n)

/-! ## Constants of `png.h` -/

/-- Modelled from the spec: `png.h` is not among the sources. The colour type
`PNG_COLOR_TYPE_GRAY` (the spec's Grayscale) has the PNG colour-type code 0. -/
def PNG_COLOR_TYPE_GRAY : Nat := 0

/-- Modelled from the spec: `png.h` is not among the sources. The colour type
`PNG_COLOR_TYPE_RGB` (the spec's Truecolor) has the PNG colour-type code 2. -/
def PNG_COLOR_TYPE_RGB : Nat := 2

/-- Modelled from the spec: `png.h` is not among the sources. A colour mode the
spec does not support, palette-indexed colour, with the PNG colour-type code 3. -/
def PNG_COLOR_TYPE_PALETTE : Nat := 3

/-- Modelled from the spec: `png.h` is not among the sources. A colour mode the
spec does not support, gray with alpha, with the PNG colour-type code 4. -/
def PNG_COLOR_TYPE_GRAY_ALPHA : Nat := 4

/-- Modelled from the spec: `png.h` is not among the sources. The colour type
`PNG_COLOR_TYPE_RGBA` (the spec's TruecolorAlpha) has the PNG colour-type code 6. -/
def PNG_COLOR_TYPE_RGBA : Nat := 6

/-! ## 32-bit and 8-bit arithmetic -/

/-- The `uint32_t` shift `a << k`. -/
def shl32 (a k : Nat) : Nat := (a <<< k) % 2 ^ 32

/-- The value a `png_byte` holds after `v` is stored into it. -/
def toByte (v : Nat) : Nat := v % 256

/-- The value `(0xFF << 24)` as it enters a `uint32_t` expression. -/
def alphaFF : Nat := 0xFF <<< 24

/-- The pixel `(A << 24) | (R << 16) | (G << 8) | B` of lines 178 and 369. -/
def packARGB (A R G B : Nat) : Nat :=
  shl32 A 24 ||| shl32 R 16 ||| shl32 G 8 ||| B

/-- The pixel `(0xFF << 24) | (R << 16) | (G << 8) | B` of lines 159 and 197. -/
def packOpaque (R G B : Nat) : Nat :=
  alphaFF ||| shl32 R 16 ||| shl32 G 8 ||| B

/-- The lane `pixel & 0xFF`. -/
def laneB (pixel : Nat) : Nat := pixel &&& 0xFF

/-- The lane `(pixel >> 8) & 0xFF`. -/
def laneG (pixel : Nat) : Nat := (pixel >>> 8) &&& 0xFF

/-- The lane `(pixel >> 16) & 0xFF`. -/
def laneR (pixel : Nat) : Nat := (pixel >>> 16) &&& 0xFF

/-- The lane `(pixel >> 24) & 0xFF`. -/
def laneA (pixel : Nat) : Nat := (pixel >>> 24) &&& 0xFF

/-! ## The colour-type dispatch -/

/-- The flags `isBGRA` and `isGrayscale` of both marshaling loops. -/
structure Flags where
  isBGRA : Bool
  isGrayscale : Bool
  deriving DecidableEq, Repr

/-- Lines 138-149 of `read_png_file`. -/
def read_classify (color_type : Nat) : Outcome Flags :=
  if color_type = PNG_COLOR_TYPE_RGBA then .done ⟨true, false⟩
  else if color_type = PNG_COLOR_TYPE_RGB then .done ⟨false, false⟩
  else if color_type = PNG_COLOR_TYPE_GRAY then .done ⟨false, true⟩
  else .aborted .readUnsupportedFormat

/-- Lines 254-265 of `write_png_file`. -/
def write_classify (color_type : Nat) : Outcome Flags :=
  if color_type = PNG_COLOR_TYPE_RGBA then .done ⟨true, false⟩
  else if color_type = PNG_COLOR_TYPE_RGB then .done ⟨false, false⟩
  else if color_type = PNG_COLOR_TYPE_GRAY then .done ⟨false, true⟩
  else .aborted .writeUnsupportedFormat

/-! ## The read loop of `read_png_file` -/

/-- The buffer `pixels` together with the counter `pixeli`. -/
structure PixCursor where
  pixels : List Nat
  pixeli : Nat
  deriving DecidableEq, Repr

/-- The statements `pixels[pixeli] = pixel; pixeli++;`. -/
def storePixel (pixel : Nat) (s : PixCursor) : Outcome PixCursor :=
  if s.pixeli < s.pixels.length then
    .done ⟨s.pixels.set s.pixeli pixel, s.pixeli + 1⟩
  else .fault

/-- Lines 156-167: one round of the grayscale loop, at column `x`. -/
def readGrayPixel (row : List Nat) (x : Nat) (s : PixCursor) : Outcome PixCursor :=
  match row[x]? with
  | some gray => storePixel (packOpaque gray gray gray) s
  | none => .fault

/-- Lines 171-186: one round of the RGBA loop, at column `x`. -/
def readRGBAPixel (row : List Nat) (x : Nat) (s : PixCursor) : Outcome PixCursor :=
  match row[x * 4 + 2]?, row[x * 4 + 1]?, row[x * 4]?, row[x * 4 + 3]? with
  | some B, some G, some R, some A => storePixel (packARGB A R G B) s
  | _, _, _, _ => .fault

/-- Lines 191-205: one round of the RGB loop, at column `x`. -/
def readRGBPixel (row : List Nat) (x : Nat) (s : PixCursor) : Outcome PixCursor :=
  match row[x * 3 + 2]?, row[x * 3 + 1]?, row[x * 3]? with
  | some B, some G, some R => storePixel (packOpaque R G B) s
  | _, _, _ => .fault

/-- Lines 152-207: one round of the row loop of `read_png_file`, at row `y`. -/
def readRow (f : Flags) (width : Nat) (row_pointers : List (List Nat)) (y : Nat)
    (s : PixCursor) : Outcome PixCursor :=
  match row_pointers[y]? with
  | none => .fault
  | some row =>
    if f.isGrayscale then forLoop (readGrayPixel row) width s
    else if f.isBGRA then forLoop (readRGBAPixel row) width s
    else forLoop (readRGBPixel row) width s

/-- Lines 136 and 151-208: the read loop, started with `pixeli = 0`. -/
def readLoop (f : Flags) (width height : Nat) (row_pointers : List (List Nat))
    (pixels : List Nat) : Outcome PixCursor :=
  forLoop (readRow f width row_pointers) height ⟨pixels, 0⟩

/-- Lines 136-208 of `read_png_file`: the colour-type dispatch followed by the read
loop. `pixels` is the buffer allocated at line 130; the result is its final
content. -/
def read_marshal (color_type width height : Nat) (row_pointers : List (List Nat))
    (pixels : List Nat) : Outcome (List Nat) :=
  (read_classify color_type).bind fun f =>
    (readLoop f width height row_pointers pixels).bind fun s => .done s.pixels

/-! ## The write loop of `write_png_file` -/

/-- The buffers `row_pointers` together with the counter `pixeli`. -/
structure RowCursor where
  rows : List (List Nat)
  pixeli : Nat
  deriving DecidableEq, Repr

/-- The store `row[i] = v` into row `y` of `row_pointers`. -/
def storeByte (y i v : Nat) (rows : List (List Nat)) : Outcome (List (List Nat)) :=
  match rows[y]? with
  | none => .fault
  | some row =>
    if i < row.length then .done (rows.set y (row.set i (toByte v))) else .fault

/-- Lines 274-286: one round of the grayscale loop, at column `x` of row `y`. -/
def writeGrayPixel (pixels : List Nat) (y x : Nat) (s : RowCursor) : Outcome RowCursor :=
  match pixels[s.pixeli]? with
  | none => .fault
  | some pixel =>
    let gray := laneB pixel
    (storeByte y x gray s.rows).bind fun r => .done ⟨r, s.pixeli + 1⟩

/-- Lines 290-308: one round of the RGBA loop, at column `x` of row `y`. -/
def writeRGBAPixel (pixels : List Nat) (y x : Nat) (s : RowCursor) : Outcome RowCursor :=
  match pixels[s.pixeli]? with
  | none => .fault
  | some pixel =>
    let B := laneB pixel
    let G := laneG pixel
    let R := laneR pixel
    let A := laneA pixel
    (storeByte y (x * 4) R s.rows).bind fun r0 =>
    (storeByte y (x * 4 + 1) G r0).bind fun r1 =>
    (storeByte y (x * 4 + 2) B r1).bind fun r2 =>
    (storeByte y (x * 4 + 3) A r2).bind fun r3 => .done ⟨r3, s.pixeli + 1⟩

/-- Lines 312-328: one round of the RGB loop, at column `x` of row `y`. -/
def writeRGBPixel (pixels : List Nat) (y x : Nat) (s : RowCursor) : Outcome RowCursor :=
  match pixels[s.pixeli]? with
  | none => .fault
  | some pixel =>
    let B := laneB pixel
    let G := laneG pixel
    let R := laneR pixel
    (storeByte y (x * 3) R s.rows).bind fun r0 =>
    (storeByte y (x * 3 + 1) G r0).bind fun r1 =>
    (storeByte y (x * 3 + 2) B r1).bind fun r2 => .done ⟨r2, s.pixeli + 1⟩

/-- Lines 270-330: one round of the row loop of `write_png_file`, at row `y`. -/
def writeRow (f : Flags) (width : Nat) (pixels : List Nat) (y : Nat)
    (s : RowCursor) : Outcome RowCursor :=
  match s.rows[y]? with
  | none => .fault
  | some _ =>
    if f.isGrayscale then forLoop (writeGrayPixel pixels y) width s
    else if f.isBGRA then forLoop (writeRGBAPixel pixels y) width s
    else forLoop (writeRGBPixel pixels y) width s

/-- Lines 267-331: the write loop, started with `pixeli = 0`. -/
def writeLoop (f : Flags) (width height : Nat) (pixels : List Nat)
    (row_pointers : List (List Nat)) : Outcome RowCursor :=
  forLoop (writeRow f width pixels) height ⟨row_pointers, 0⟩

/-- Lines 254-331 of `write_png_file`: the colour-type dispatch followed by the
write loop. `row_pointers` are the buffers allocated at line 252; the result is
their final content. -/
def write_marshal (color_type width height : Nat) (pixels : List Nat)
    (row_pointers : List (List Nat)) : Outcome (List (List Nat)) :=
  (write_classify color_type).bind fun f =>
    (writeLoop f width height pixels row_pointers).bind fun s => .done s.rows

/-! ## `process_file` -/

/-- Lines 356-369: the new value of one pixel, with the `B` and `R` lanes
exchanged. -/
def process_pixel (pixel : Nat) : Nat :=
  let B := laneB pixel
  let G := laneG pixel
  let R := laneR pixel
  let A := laneA pixel
  let tmp := B
  let B := R
  let R := tmp
  packARGB A R G B

/-- Lines 355-371: one round of the loop of `process_file`, at index `i`. -/
def processStep (i : Nat) (pixels : List Nat) : Outcome (List Nat) :=
  match pixels[i]? with
  | none => .fault
  | some pixel => .done (pixels.set i (process_pixel pixel))

/-- Lines 348-373: `process_file`, on the buffer `pixels`. -/
def process_file (width height : Nat) (pixels : List Nat) : Outcome (List Nat) :=
  let numPixels := width * height
  forLoop processStep numPixels pixels

/-! ## Global state, row buffers and `read_png_file` -/

/-- The global variables of `main.cpp` that the code below reads and writes. -/
structure Globals where
  width : Nat
  height : Nat
  color_type : Nat
  bit_depth : Nat
  /-- The variable `row_pointers`; `none` stands for `NULL`. -/
  row_pointers : Option (List (List Nat))
  /-- The variable `pixels`; `none` stands for `NULL`. -/
  pixels : Option (List Nat)
  deriving DecidableEq, Repr

/-- The answers of `malloc`: whether each call succeeds, and what the fresh memory
happens to hold. -/
structure Malloc where
  /-- The call at line 51 succeeds. -/
  tableOk : Bool
  /-- The call at line 58 for row `y` succeeds. -/
  rowOk : Nat → Bool
  /-- The content of the fresh row `y` at offset `i`. -/
  rowJunk : Nat → Nat → Nat
  /-- The call at line 130 succeeds. -/
  pixelsOk : Bool
  /-- The content of the fresh pixel buffer at index `i`. -/
  pixelsJunk : Nat → Nat

/-- The answers of the file system and of libpng to `read_png_file`. -/
structure PngSource where
  /-- The first of the failures of lines 83-101, if there is one. -/
  initError : Option InitError
  /-- The value of `png_get_image_width`. -/
  width : Nat
  /-- The value of `png_get_image_height`. -/
  height : Nat
  /-- The value of `png_get_color_type`. -/
  color_type : Nat
  /-- The value of `png_get_bit_depth`. -/
  bit_depth : Nat
  /-- The value of `png_get_rowbytes`. -/
  rowbytes : Nat
  /-- The call `png_read_image` ends in the error branch of line 121. -/
  readImageError : Bool
  /-- The byte `png_read_image` stores at offset `i` of row `y`. -/
  image : Nat → Nat → Nat

/-- A run of a function on the global state: the globals when it stopped, and how
it stopped. -/
structure Run where
  globals : Globals
  result : Outcome Unit
  deriving DecidableEq, Repr

/-- Sequencing of runs: the next step starts only if the run reached its end. -/
def Run.andThen (r : Run) (f : Globals → Run) : Run :=
  match r.result with
  | .done _ => f r.globals
  | _ => r

/-- The loop `for (y = 0; y < n; y++) body` on the global state. -/
def forRun (body : Nat → Globals → Run) : Nat → Globals → Run
  | 0, g => ⟨g, .done ()⟩
  | n + 1, g => (forRun body n g).andThen (body n)

/-- The memory a successful `malloc` of `rowbytes` bytes returns for row `y`. -/
def freshRow (m : Malloc) (rowbytes y : Nat) : List Nat :=
  (List.range rowbytes).map fun i => toByte (m.rowJunk y i)

/-- Lines 58-62: one round of the loop of `allocate_row_pointers`, at row `y`. The
table `row_pointers` is the list of the entries assigned so far. -/
def allocateRow (m : Malloc) (rowbytes y : Nat) (g : Globals) : Run :=
  match g.row_pointers with
  | none => ⟨g, .fault⟩
  | some rows =>
    if m.rowOk y then
      ⟨{ g with row_pointers := some (rows ++ [freshRow m rowbytes y]) }, .done ()⟩
    else ⟨g, .aborted .allocRow⟩

/-- Lines 45-64: `allocate_row_pointers`, with `rowbytes` the value of
`png_get_rowbytes`. -/
def allocate_row_pointers (m : Malloc) (rowbytes : Nat) (g : Globals) : Run :=
  if g.row_pointers ≠ none then ⟨g, .aborted .allocAlready⟩
  else if m.tableOk then
    forRun (allocateRow m rowbytes) g.height { g with row_pointers := some [] }
  else ⟨g, .aborted .allocTable⟩

/-- Line 73: one round of the loop of `free_row_pointers`, which reads entry `y` of
the table. -/
def freeRow (y : Nat) (g : Globals) : Run :=
  match g.row_pointers with
  | none => ⟨g, .fault⟩
  | some rows => if y < rows.length then ⟨g, .done ()⟩ else ⟨g, .fault⟩

/-- Lines 66-76: `free_row_pointers`. -/
def free_row_pointers (g : Globals) : Run :=
  if g.row_pointers = none then ⟨g, .done ()⟩
  else (forRun freeRow g.height g).andThen fun g' =>
    ⟨{ g' with row_pointers := none }, .done ()⟩

/-- Line 126: `png_read_image` fills every row buffer with the bytes of the image. -/
def png_read_image (file : PngSource) (rows : List (List Nat)) : List (List Nat) :=
  rows.enum.map fun yr => (List.range yr.2.length).map fun i => toByte (file.image yr.1 i)

/-- Line 130: the memory a successful `malloc` returns for `pixels`. -/
def freshPixels (m : Malloc) (n : Nat) : List Nat :=
  (List.range n).map fun i => m.pixelsJunk i % 2 ^ 32

/-- Lines 136-208 of `read_png_file` on the global state: the colour-type dispatch
and the read loop, which leaves its result in `pixels`. -/
def readPixels (g : Globals) : Run :=
  match read_classify g.color_type with
  | .aborted e => ⟨g, .aborted e⟩
  | .fault => ⟨g, .fault⟩
  | .done f =>
    match g.row_pointers, g.pixels with
    | some rows, some pix =>
      match readLoop f g.width g.height rows pix with
      | .done s => ⟨{ g with pixels := some s.pixels }, .done ()⟩
      | .aborted e => ⟨g, .aborted e⟩
      | .fault => ⟨g, .fault⟩
    | _, _ => ⟨g, .fault⟩

/-- Lines 78-213: `read_png_file`. -/
def read_png_file (file : PngSource) (m : Malloc) (g : Globals) : Run :=
  match file.initError with
  | some e => ⟨g, .aborted (.readInit e)⟩
  | none =>
    let g1 := { g with width := file.width, height := file.height,
                       color_type := file.color_type, bit_depth := file.bit_depth }
    if g1.bit_depth ≠ 8 then ⟨g1, .aborted .readBitDepth⟩
    else
      (allocate_row_pointers m file.rowbytes g1).andThen fun g2 =>
      if file.readImageError then ⟨g2, .aborted .readImage⟩
      else
        let g3 := { g2 with row_pointers := g2.row_pointers.map (png_read_image file) }
        if m.pixelsOk then
          let g4 := { g3 with pixels := some (freshPixels m (g3.width * g3.height)) }
          (readPixels g4).andThen free_row_pointers
        else ⟨{ g3 with pixels := none }, .aborted .readPixelsAlloc⟩

/-- Lines 390-392 of `main`, without the codec: the read loop, `process_file` and
the write loop in a row. `pixels` and `row_pointers` are the buffers allocated at
lines 130 and 252. -/
def pipeline (color_type width height : Nat) (rows : List (List Nat)) (pixels : List Nat)
    (row_pointers : List (List Nat)) : Outcome (List (List Nat)) :=
  (read_marshal color_type width height rows pixels).bind fun pix =>
    (process_file width height pix).bind fun out =>
      write_marshal color_type width height out row_pointers

/-- The globals when `main` starts: `row_pointers` and `pixels` are `NULL`. -/
def startGlobals : Globals := ⟨0, 0, 0, 0, none, none⟩

/-- A `malloc` that always succeeds and returns memory filled with the byte `0xAB`. -/
def plainMalloc : Malloc := ⟨true, fun _ => true, fun _ _ => 0xAB, true, fun _ => 0xABABABAB⟩

/-- A readable 1 x 1 grayscale PNG file with 16 bits per sample. -/
def deepSource : PngSource :=
  ⟨none, 1, 1, PNG_COLOR_TYPE_GRAY, 16, 2, false, fun _ _ => 5⟩

/-! ## Well-formed data -/

/-- Every element of the row is a byte. -/
def IsBytes (row : List Nat) : Prop := ∀ b ∈ row, b < 256

/-- Bytes per pixel of a supported colour type, the factor of `x` in the row offsets
`row[x*4]`, `row[x*3]` and `row[x]` of both loops: 4, 3 or 1. -/
def bytesPerPixel (color_type : Nat) : Nat :=
  if color_type = PNG_COLOR_TYPE_RGBA then 4
  else if color_type = PNG_COLOR_TYPE_RGB then 3
  else 1

/-- The colour type is one of the three the marshaling supports. -/
def Supported (color_type : Nat) : Prop :=
  color_type = PNG_COLOR_TYPE_GRAY ∨ color_type = PNG_COLOR_TYPE_RGB ∨
    color_type = PNG_COLOR_TYPE_RGBA

instance (color_type : Nat) : Decidable (Supported color_type) := by
  unfold Supported; infer_instance

instance (row : List Nat) : Decidable (IsBytes row) := by
  unfold IsBytes; infer_instance

/-! ## Auxiliary definitions

Invariants and closed forms used by the lemmas below; no statement of a claim
depends on them. -/

/-- The first `n` pixels hold the values `g`, the counter is `n`, and the buffer has
kept its length `L`. -/
def ReadInv (L : Nat) (g : Nat → Nat) (n : Nat) (s : PixCursor) : Prop :=
  s.pixeli = n ∧ s.pixels.length = L ∧ ∀ j, j < n → s.pixels[j]? = some (g j)

/-- Byte `i` of row `y`, zero outside the rows. -/
def byteAt (rows : List (List Nat)) (y i : Nat) : Nat := (rows.getD y []).getD i 0

/-- One round of a write loop with `bpp` bytes per pixel: it stores the bytes
`enc pixel k` at the offsets `bpp * x + k` of row `y`, leaves every other byte as
it was, and moves the counter on by one. -/
def WriteStep (bpp : Nat) (enc : Nat → Nat → Nat)
    (body : Nat → Nat → RowCursor → Outcome RowCursor) (pixels : List Nat) : Prop :=
  ∀ y x rows row p pixel, rows[y]? = some row → bpp * x + bpp ≤ row.length →
    pixels[p]? = some pixel →
    ∃ row', body y x ⟨rows, p⟩ = .done ⟨rows.set y row', p + 1⟩ ∧
      row'.length = row.length ∧
      (∀ k, k < bpp → row'[bpp * x + k]? = some (enc pixel k)) ∧
      (∀ i, i < bpp * x ∨ bpp * x + bpp ≤ i → row'[i]? = row[i]?)

/-- The bytes the grayscale loop stores for a pixel. -/
def encGray (pixel _k : Nat) : Nat := toByte (laneB pixel)

/-- The bytes the RGB loop stores for a pixel. -/
def encRGB (pixel k : Nat) : Nat :=
  toByte (if k = 0 then laneR pixel else if k = 1 then laneG pixel else laneB pixel)

/-- The bytes the RGBA loop stores for a pixel. -/
def encRGBA (pixel k : Nat) : Nat :=
  toByte (if k = 0 then laneR pixel else if k = 1 then laneG pixel
    else if k = 2 then laneB pixel else laneA pixel)

/-- Row `row'` is row `row0` after the write loop has gone through `W` pixels
starting at pixel index `p0`. -/
def RowWritten (bpp : Nat) (enc : Nat → Nat → Nat) (pixels : List Nat) (W p0 : Nat)
    (row0 row' : List Nat) : Prop :=
  row'.length = row0.length ∧
  (∀ x k pixel, x < W → k < bpp → pixels[p0 + x]? = some pixel →
    row'[bpp * x + k]? = some (enc pixel k)) ∧
  (∀ i, bpp * W ≤ i → row'[i]? = row0[i]?)

/-- The body of one round of the write loop, as `writeRow` selects it. -/
def writeBody (f : Flags) (pixels : List Nat) (y x : Nat) (s : RowCursor) :
    Outcome RowCursor :=
  if f.isGrayscale then writeGrayPixel pixels y x s
  else if f.isBGRA then writeRGBAPixel pixels y x s
  else writeRGBPixel pixels y x s

/-- The bytes the write loop stores for a pixel, by colour type. -/
def encOf (color_type : Nat) : Nat → Nat → Nat :=
  if color_type = PNG_COLOR_TYPE_RGBA then encRGBA
  else if color_type = PNG_COLOR_TYPE_RGB then encRGB
  else encGray

/-- The pixel the read loop stores for column `x` of row `y`, by colour type. -/
def decOf (color_type : Nat) (rows : List (List Nat)) (y x : Nat) : Nat :=
  if color_type = PNG_COLOR_TYPE_RGBA then
    packARGB (byteAt rows y (4 * x + 3)) (byteAt rows y (4 * x))
      (byteAt rows y (4 * x + 1)) (byteAt rows y (4 * x + 2))
  else if color_type = PNG_COLOR_TYPE_RGB then
    packOpaque (byteAt rows y (3 * x)) (byteAt rows y (3 * x + 1))
      (byteAt rows y (3 * x + 2))
  else packOpaque (byteAt rows y x) (byteAt rows y x) (byteAt rows y x)

/-- The offset within a pixel from which the byte at offset `k` comes after the
read loop, `process_file` and the write loop: the first and third bytes change
places, except in grayscale rows. -/
def swapIdx (color_type k : Nat) : Nat :=
  if color_type = PNG_COLOR_TYPE_GRAY then k
  else if k = 0 then 2 else if k = 2 then 0 else k

/-- The outcome is not a call of `abort_`. -/
def NoAbort {α : Type} (o : Outcome α) : Prop := ∀ e, o ≠ .aborted e

/-! ## Arithmetic of lanes and packing -/

theorem laneB_eq (p : Nat) : laneB p = p % 256 := by
  unfold laneB
  exact Nat.and_pow_two_sub_one_eq_mod p 8

theorem laneG_eq (p : Nat) : laneG p = p / 256 % 256 := by
  unfold laneG
  rw [Nat.shiftRight_eq_div_pow]
  exact Nat.and_pow_two_sub_one_eq_mod _ 8

theorem laneR_eq (p : Nat) : laneR p = p / 65536 % 256 := by
  unfold laneR
  rw [Nat.shiftRight_eq_div_pow]
  exact Nat.and_pow_two_sub_one_eq_mod _ 8

theorem laneA_eq (p : Nat) : laneA p = p / 16777216 % 256 := by
  unfold laneA
  rw [Nat.shiftRight_eq_div_pow]
  exact Nat.and_pow_two_sub_one_eq_mod _ 8

theorem or3_eq_add (A R G B : Nat) (hR : R < 256) (hG : G < 256) (hB : B < 256) :
    A * 16777216 ||| R * 65536 ||| G * 256 ||| B
      = A * 16777216 + R * 65536 + G * 256 + B := by
  have h1 : A * 16777216 ||| R * 65536 = A * 16777216 + R * 65536 := by
    have h := Nat.mul_add_lt_is_or (i := 24) (b := R * 65536) (by norm_num; omega) A
    rw [← Nat.mul_comm A] at h
    exact h.symm
  have h2 : (A * 16777216 + R * 65536) ||| G * 256
      = A * 16777216 + R * 65536 + G * 256 := by
    have h := Nat.mul_add_lt_is_or (i := 16) (b := G * 256) (by norm_num; omega)
      (A * 256 + R)
    have e : 2 ^ 16 * (A * 256 + R) = A * 16777216 + R * 65536 := by norm_num; ring
    rw [e] at h
    exact h.symm
  have h3 : (A * 16777216 + R * 65536 + G * 256) ||| B
      = A * 16777216 + R * 65536 + G * 256 + B := by
    have h := Nat.mul_add_lt_is_or (i := 8) (b := B) (by norm_num; omega)
      (A * 65536 + R * 256 + G)
    have e : 2 ^ 8 * (A * 65536 + R * 256 + G)
        = A * 16777216 + R * 65536 + G * 256 := by norm_num; ring
    rw [e] at h
    exact h.symm
  rw [h1, h2, h3]

theorem packARGB_eq (A R G B : Nat) (hA : A < 256) (hR : R < 256) (hG : G < 256)
    (hB : B < 256) :
    packARGB A R G B = A * 16777216 + R * 65536 + G * 256 + B := by
  unfold packARGB shl32
  simp only [Nat.shiftLeft_eq]
  norm_num
  rw [Nat.mod_eq_of_lt (by omega : A * 16777216 < 4294967296),
    Nat.mod_eq_of_lt (by omega : R * 65536 < 4294967296),
    Nat.mod_eq_of_lt (by omega : G * 256 < 4294967296)]
  exact or3_eq_add A R G B hR hG hB

theorem packOpaque_eq (R G B : Nat) (hR : R < 256) (hG : G < 256) (hB : B < 256) :
    packOpaque R G B = 255 * 16777216 + R * 65536 + G * 256 + B := by
  unfold packOpaque shl32 alphaFF
  simp only [Nat.shiftLeft_eq]
  norm_num
  rw [Nat.mod_eq_of_lt (by omega : R * 65536 < 4294967296),
    Nat.mod_eq_of_lt (by omega : G * 256 < 4294967296)]
  exact or3_eq_add 255 R G B hR hG hB

theorem packOpaque_eq_packARGB (R G B : Nat) (hR : R < 256) (hG : G < 256)
    (hB : B < 256) : packOpaque R G B = packARGB 255 R G B := by
  rw [packOpaque_eq R G B hR hG hB, packARGB_eq 255 R G B (by omega) hR hG hB]

/-! ## Loops and invariants -/

theorem forLoop_inv {σ : Type} (body : Nat → σ → Outcome σ) (P : Nat → σ → Prop)
    (n : Nat) (s0 : σ) (h0 : P 0 s0)
    (hstep : ∀ i, i < n → ∀ s, P i s → ∃ s', body i s = .done s' ∧ P (i + 1) s') :
    ∃ s', forLoop body n s0 = .done s' ∧ P n s' := by
  induction n with
  | zero => exact ⟨s0, rfl, h0⟩
  | succ k ih =>
    obtain ⟨s1, h1, hP1⟩ := ih (fun i hi s hs => hstep i (by omega) s hs)
    obtain ⟨s2, h2, hP2⟩ := hstep k (by omega) s1 hP1
    exact ⟨s2, by simp [forLoop, h1, Outcome.bind, h2], hP2⟩

theorem cell_lt (W H x y : Nat) (hx : x < W) (hy : y < H) : y * W + x < W * H := by
  have h : (y + 1) * W ≤ H * W := Nat.mul_le_mul_right W hy
  rw [Nat.mul_comm W H]
  rw [Nat.add_mul] at h
  omega

theorem cell_div (W x y : Nat) (hx : x < W) : (y * W + x) / W = y := by
  rw [Nat.add_comm, Nat.add_mul_div_right _ _ (by omega : 0 < W), Nat.div_eq_of_lt hx]
  omega

theorem cell_mod (W x y : Nat) (hx : x < W) : (y * W + x) % W = x := by
  rw [Nat.add_comm, Nat.add_mul_mod_self_right, Nat.mod_eq_of_lt hx]

/-! ## The read loop fills `pixels` in row-major order -/

theorem storePixel_inv (L : Nat) (g : Nat → Nat) (n : Nat) (s : PixCursor)
    (hn : n < L) (hs : ReadInv L g n s) :
    ∃ s', storePixel (g n) s = .done s' ∧ ReadInv L g (n + 1) s' := by
  obtain ⟨hi, hl, hv⟩ := hs
  refine ⟨⟨s.pixels.set s.pixeli (g n), s.pixeli + 1⟩, ?_, ?_, ?_, ?_⟩
  · simp [storePixel, hi, hl, hn]
  · simp [hi]
  · simp [hl]
  · intro j hj
    simp only [hi]
    by_cases hjn : j = n
    · subst hjn
      simp [List.getElem?_set, hl, hn]
    · rw [List.getElem?_set_ne (by omega)]
      exact hv j (by omega)

theorem readLoop_spec (f : Flags) (W H : Nat) (rows : List (List Nat)) (buf : List Nat)
    (val : Nat → Nat → Nat) (hrows : H ≤ rows.length) (hbuf : buf.length = W * H)
    (hbody : ∀ y x row, y < H → x < W → rows[y]? = some row → ∀ s,
      (if f.isGrayscale then readGrayPixel row x s
        else if f.isBGRA then readRGBAPixel row x s
        else readRGBPixel row x s) = storePixel (val y x) s) :
    ∃ s, readLoop f W H rows buf = .done s ∧ s.pixels.length = W * H ∧
      ∀ x y, x < W → y < H → s.pixels[y * W + x]? = some (val y x) := by
  have key := forLoop_inv (readRow f W rows)
    (fun y s => ReadInv (W * H) (fun j => val (j / W) (j % W)) (y * W) s) H ⟨buf, 0⟩
    ⟨by simp, hbuf, by intro j hj; simp at hj⟩
    (by
      intro y hy s hs
      have hlt : y < rows.length := by omega
      have hrow : rows[y]? = some rows[y] := List.getElem?_eq_getElem hlt
      have inner := forLoop_inv
        (fun x s => if f.isGrayscale then readGrayPixel rows[y] x s
          else if f.isBGRA then readRGBAPixel rows[y] x s
          else readRGBPixel rows[y] x s)
        (fun x s => ReadInv (W * H) (fun j => val (j / W) (j % W)) (y * W + x) s) W s
        (by simpa using hs)
        (by
          intro x hx t ht
          simp only [hbody y x rows[y] hy hx hrow t]
          have h := storePixel_inv (W * H) (fun j => val (j / W) (j % W)) (y * W + x) t
            (cell_lt W H x y hx hy) ht
          simpa [cell_div W x y hx, cell_mod W x y hx] using h)
      obtain ⟨s', hs', hinv⟩ := inner
      refine ⟨s', ?_, ?_⟩
      · rw [← hs']
        simp only [readRow, hrow]
        by_cases hg : f.isGrayscale <;> by_cases hb : f.isBGRA <;> simp [hg, hb]
      · have e : (y + 1) * W = y * W + W := by ring
        show ReadInv (W * H) (fun j => val (j / W) (j % W)) ((y + 1) * W) s'
        rw [e]
        exact hinv)
  obtain ⟨s, hs, hi, hl, hv⟩ := key
  refine ⟨s, hs, hl, ?_⟩
  intro x y hx hy
  have h := hv (y * W + x) (by
    have := cell_lt W H x y hx hy
    rw [Nat.mul_comm W H] at this
    exact this)
  simpa [cell_div W x y hx, cell_mod W x y hx] using h

theorem byteAt_eq (rows : List (List Nat)) (y i : Nat) (row : List Nat)
    (hrow : rows[y]? = some row) (hi : i < row.length) :
    row[i]? = some (byteAt rows y i) := by
  simp [byteAt, List.getD_eq_getElem?_getD, hrow, List.getElem?_eq_getElem hi]

theorem byteAt_of_get (rows : List (List Nat)) (y i b : Nat) (row : List Nat)
    (hrow : rows[y]? = some row) (hb : row[i]? = some b) : byteAt rows y i = b := by
  simp [byteAt, List.getD_eq_getElem?_getD, hrow, hb]

theorem byteAt_lt (rows : List (List Nat)) (y i : Nat)
    (hbytes : ∀ row ∈ rows, IsBytes row) : byteAt rows y i < 256 := by
  unfold byteAt
  rw [List.getD_eq_getElem?_getD, List.getD_eq_getElem?_getD]
  cases hrow : rows[y]? with
  | none => simp
  | some row =>
    cases hb : row[i]? with
    | none => simp [hb]
    | some b =>
      simp only [Option.getD_some, hb]
      exact hbytes row (List.getElem?_mem hrow) b (List.getElem?_mem hb)

theorem readLoop_rgba (W H : Nat) (rows : List (List Nat)) (buf : List Nat)
    (hrows : rows.length = H) (hlen : ∀ row ∈ rows, 4 * W ≤ row.length)
    (hbuf : buf.length = W * H) :
    ∃ s, readLoop ⟨true, false⟩ W H rows buf = .done s ∧ s.pixels.length = W * H ∧
      ∀ x y, x < W → y < H → s.pixels[y * W + x]? = some
        (packARGB (byteAt rows y (4 * x + 3)) (byteAt rows y (4 * x))
          (byteAt rows y (4 * x + 1)) (byteAt rows y (4 * x + 2))) := by
  apply readLoop_spec ⟨true, false⟩ W H rows buf _ (by omega) hbuf
  intro y x row _ hx hrow s
  have hl := hlen row (List.getElem?_mem hrow)
  simp only [Bool.false_eq_true, if_false, if_true, readRGBAPixel]
  rw [Nat.mul_comm x 4, byteAt_eq rows y (4 * x) row hrow (by omega),
    byteAt_eq rows y (4 * x + 1) row hrow (by omega),
    byteAt_eq rows y (4 * x + 2) row hrow (by omega),
    byteAt_eq rows y (4 * x + 3) row hrow (by omega)]

theorem readLoop_rgb (W H : Nat) (rows : List (List Nat)) (buf : List Nat)
    (hrows : rows.length = H) (hlen : ∀ row ∈ rows, 3 * W ≤ row.length)
    (hbuf : buf.length = W * H) :
    ∃ s, readLoop ⟨false, false⟩ W H rows buf = .done s ∧ s.pixels.length = W * H ∧
      ∀ x y, x < W → y < H → s.pixels[y * W + x]? = some
        (packOpaque (byteAt rows y (3 * x)) (byteAt rows y (3 * x + 1))
          (byteAt rows y (3 * x + 2))) := by
  apply readLoop_spec ⟨false, false⟩ W H rows buf _ (by omega) hbuf
  intro y x row _ hx hrow s
  have hl := hlen row (List.getElem?_mem hrow)
  simp only [Bool.false_eq_true, if_false, readRGBPixel]
  rw [Nat.mul_comm x 3, byteAt_eq rows y (3 * x) row hrow (by omega),
    byteAt_eq rows y (3 * x + 1) row hrow (by omega),
    byteAt_eq rows y (3 * x + 2) row hrow (by omega)]

theorem readLoop_gray (W H : Nat) (rows : List (List Nat)) (buf : List Nat)
    (hrows : rows.length = H) (hlen : ∀ row ∈ rows, W ≤ row.length)
    (hbuf : buf.length = W * H) :
    ∃ s, readLoop ⟨false, true⟩ W H rows buf = .done s ∧ s.pixels.length = W * H ∧
      ∀ x y, x < W → y < H → s.pixels[y * W + x]? = some
        (packOpaque (byteAt rows y x) (byteAt rows y x) (byteAt rows y x)) := by
  apply readLoop_spec ⟨false, true⟩ W H rows buf _ (by omega) hbuf
  intro y x row _ hx hrow s
  have hl := hlen row (List.getElem?_mem hrow)
  simp only [if_true, readGrayPixel]
  rw [byteAt_eq rows y x row hrow (by omega)]

theorem read_marshal_of_loop (ct W H : Nat) (f : Flags) (rows : List (List Nat))
    (buf : List Nat) (s : PixCursor) (hc : read_classify ct = .done f)
    (hs : readLoop f W H rows buf = .done s) :
    read_marshal ct W H rows buf = .done s.pixels := by
  simp [read_marshal, hc, hs, Outcome.bind]

/-! ## The write loop fills the rows pixel by pixel -/

theorem set_same {α : Type} (l : List α) (y : Nat) (a : α) (h : l[y]? = some a) :
    l.set y a = l := by
  apply List.ext_getElem?
  intro n
  by_cases hn : y = n
  · subst hn
    rw [List.getElem?_set_self', h]
    simp
  · rw [List.getElem?_set_ne hn]

theorem get_set_same {α : Type} (l : List α) (y : Nat) (a b : α) (h : l[y]? = some a) :
    (l.set y b)[y]? = some b := by
  rw [List.getElem?_set_self', h]
  simp

theorem storeByte_eq (rows : List (List Nat)) (y i v : Nat) (row : List Nat)
    (hrow : rows[y]? = some row) (hi : i < row.length) :
    storeByte y i v rows = .done (rows.set y (row.set i (toByte v))) := by
  simp [storeByte, hrow, hi]

theorem storeByte_set (rows : List (List Nat)) (y i v : Nat) (row0 row : List Nat)
    (hrow : rows[y]? = some row0) (hi : i < row.length) :
    storeByte y i v (rows.set y row) = .done (rows.set y (row.set i (toByte v))) := by
  rw [storeByte_eq (rows.set y row) y i v row (get_set_same rows y row0 row hrow) hi,
    List.set_set]

theorem writeGray_step (pixels : List Nat) :
    WriteStep 1 encGray (writeGrayPixel pixels) pixels := by
  intro y x rows row p pixel hrow hlen hpix
  refine ⟨row.set x (toByte (laneB pixel)), ?_, by simp, ?_, ?_⟩
  · simp [writeGrayPixel, hpix, storeByte_eq rows y x _ row hrow (by omega), Outcome.bind]
  · intro k hk
    have hk0 : k = 0 := by omega
    subst hk0
    simp [encGray, List.getElem?_set_self (by omega : x < row.length)]
  · intro i hi
    rw [List.getElem?_set_ne (by omega)]

theorem writeRGB_step (pixels : List Nat) :
    WriteStep 3 encRGB (writeRGBPixel pixels) pixels := by
  intro y x rows row p pixel hrow hlen hpix
  refine ⟨((row.set (3 * x) (toByte (laneR pixel))).set (3 * x + 1)
    (toByte (laneG pixel))).set (3 * x + 2) (toByte (laneB pixel)), ?_, by simp, ?_, ?_⟩
  · have h0 := storeByte_eq rows y (3 * x) (laneR pixel) row hrow (by omega)
    have h1 := storeByte_set rows y (3 * x + 1) (laneG pixel) row
      (row.set (3 * x) (toByte (laneR pixel))) hrow (by simp; omega)
    have h2 := storeByte_set rows y (3 * x + 2) (laneB pixel) row
      ((row.set (3 * x) (toByte (laneR pixel))).set (3 * x + 1) (toByte (laneG pixel)))
      hrow (by simp; omega)
    simp only [writeRGBPixel, hpix, Nat.mul_comm x 3, h0, h1, h2, Outcome.bind]
  · intro k hk
    have hk3 : k = 0 ∨ k = 1 ∨ k = 2 := by omega
    rcases hk3 with h | h | h <;> subst h <;>
      simp [encRGB, List.getElem?_set, hlen] <;> omega
  · intro i hi
    rw [List.getElem?_set_ne (by omega), List.getElem?_set_ne (by omega),
      List.getElem?_set_ne (by omega)]

theorem writeRGBA_step (pixels : List Nat) :
    WriteStep 4 encRGBA (writeRGBAPixel pixels) pixels := by
  intro y x rows row p pixel hrow hlen hpix
  refine ⟨(((row.set (4 * x) (toByte (laneR pixel))).set (4 * x + 1)
    (toByte (laneG pixel))).set (4 * x + 2) (toByte (laneB pixel))).set (4 * x + 3)
    (toByte (laneA pixel)), ?_, by simp, ?_, ?_⟩
  · have h0 := storeByte_eq rows y (4 * x) (laneR pixel) row hrow (by omega)
    have h1 := storeByte_set rows y (4 * x + 1) (laneG pixel) row
      (row.set (4 * x) (toByte (laneR pixel))) hrow (by simp; omega)
    have h2 := storeByte_set rows y (4 * x + 2) (laneB pixel) row
      ((row.set (4 * x) (toByte (laneR pixel))).set (4 * x + 1) (toByte (laneG pixel)))
      hrow (by simp; omega)
    have h3 := storeByte_set rows y (4 * x + 3) (laneA pixel) row
      (((row.set (4 * x) (toByte (laneR pixel))).set (4 * x + 1)
        (toByte (laneG pixel))).set (4 * x + 2) (toByte (laneB pixel)))
      hrow (by simp; omega)
    simp only [writeRGBAPixel, hpix, Nat.mul_comm x 4, h0, h1, h2, h3, Outcome.bind]
  · intro k hk
    have hk4 : k = 0 ∨ k = 1 ∨ k = 2 ∨ k = 3 := by omega
    rcases hk4 with h | h | h | h <;> subst h <;>
      simp [encRGBA, List.getElem?_set, hlen] <;> omega
  · intro i hi
    rw [List.getElem?_set_ne (by omega), List.getElem?_set_ne (by omega),
      List.getElem?_set_ne (by omega), List.getElem?_set_ne (by omega)]

theorem offset_lt (bpp x' x k : Nat) (hx : x' < x) (hk : k < bpp) :
    bpp * x' + k < bpp * x := by
  have h : bpp * (x' + 1) ≤ bpp * x := Nat.mul_le_mul_left bpp hx
  rw [Nat.mul_add] at h
  omega

theorem writeRow_inner (bpp : Nat) (enc : Nat → Nat → Nat)
    (body : Nat → Nat → RowCursor → Outcome RowCursor) (pixels : List Nat)
    (hstep : WriteStep bpp enc body pixels) (W y : Nat) (rows : List (List Nat))
    (row0 : List Nat) (p0 : Nat) (hrow : rows[y]? = some row0)
    (hlen : bpp * W ≤ row0.length) (hpix : p0 + W ≤ pixels.length) :
    ∃ row', forLoop (body y) W ⟨rows, p0⟩ = .done ⟨rows.set y row', p0 + W⟩ ∧
      RowWritten bpp enc pixels W p0 row0 row' := by
  have key := forLoop_inv (body y)
    (fun x t => ∃ row', t = ⟨rows.set y row', p0 + x⟩ ∧
      RowWritten bpp enc pixels x p0 row0 row') W ⟨rows, p0⟩
    ⟨row0, by simp [set_same rows y row0 hrow], rfl, by intro x k pixel hx; omega,
      fun _ _ => rfl⟩
    (by
      rintro x hx t ⟨row', rfl, hl, hdone, hrest⟩
      have hroom : bpp * x + bpp ≤ row'.length := by
        have h : bpp * (x + 1) ≤ bpp * W := Nat.mul_le_mul_left bpp hx
        rw [Nat.mul_add] at h
        omega
      have hp : pixels[p0 + x]? = some pixels[p0 + x] :=
        List.getElem?_eq_getElem (by omega)
      obtain ⟨row'', hb, hl'', hnew, hold⟩ :=
        hstep y x (rows.set y row') row' (p0 + x) _ (get_set_same rows y row0 row' hrow)
          hroom hp
      refine ⟨⟨rows.set y row'', p0 + (x + 1)⟩, ?_, row'', rfl, by omega, ?_, ?_⟩
      · rw [hb, List.set_set]
        rfl
      · intro x' k pixel hx' hk hpx
        by_cases he : x' = x
        · subst he
          rw [hp] at hpx
          cases hpx
          exact hnew k hk
        · have hlt := offset_lt bpp x' x k (by omega) hk
          rw [hold _ (Or.inl hlt)]
          exact hdone x' k pixel (by omega) hk hpx
      · intro i hi
        rw [Nat.mul_add] at hi
        rw [hold i (Or.inr (by omega))]
        exact hrest i (by omega))
  obtain ⟨s', hs', row', rfl, hw⟩ := key
  exact ⟨row', hs', hw⟩

theorem writeRow_eq (f : Flags) (W : Nat) (pixels : List Nat) (y : Nat) (s : RowCursor)
    (row : List Nat) (hrow : s.rows[y]? = some row) :
    writeRow f W pixels y s = forLoop (writeBody f pixels y) W s := by
  simp only [writeRow, hrow]
  have e : writeBody f pixels y = fun x t =>
      if f.isGrayscale then writeGrayPixel pixels y x t
      else if f.isBGRA then writeRGBAPixel pixels y x t
      else writeRGBPixel pixels y x t := rfl
  rw [e]
  by_cases hg : f.isGrayscale <;> by_cases hb : f.isBGRA <;> simp [hg, hb]

theorem writeLoop_spec (bpp : Nat) (enc : Nat → Nat → Nat) (f : Flags)
    (pixels : List Nat) (hstep : WriteStep bpp enc (writeBody f pixels) pixels)
    (W H : Nat) (rows0 : List (List Nat)) (hrows : H ≤ rows0.length)
    (hlen : ∀ y row, y < H → rows0[y]? = some row → bpp * W ≤ row.length)
    (hpix : W * H ≤ pixels.length) :
    ∃ s, writeLoop f W H pixels rows0 = .done s ∧ s.rows.length = rows0.length ∧
      (∀ y row0, y < H → rows0[y]? = some row0 →
        ∃ row', s.rows[y]? = some row' ∧
          RowWritten bpp enc pixels W (y * W) row0 row') ∧
      ∀ y, H ≤ y → s.rows[y]? = rows0[y]? := by
  have key := forLoop_inv (writeRow f W pixels)
    (fun n s => s.pixeli = n * W ∧ s.rows.length = rows0.length ∧
      (∀ y row0, y < n → rows0[y]? = some row0 →
        ∃ row', s.rows[y]? = some row' ∧
          RowWritten bpp enc pixels W (y * W) row0 row') ∧
      ∀ y, n ≤ y → s.rows[y]? = rows0[y]?) H ⟨rows0, 0⟩
    ⟨by simp, rfl, by intro y row0 hy; omega, fun _ _ => rfl⟩
    (by
      rintro n hn ⟨rows, p⟩ ⟨hp, hl, hdone, hrest⟩
      simp only at hp hl hdone hrest
      subst hp
      have hn' : n < rows0.length := by omega
      have hr0 : rows0[n]? = some rows0[n] := List.getElem?_eq_getElem hn'
      have hrow : rows[n]? = some rows0[n] := by rw [hrest n (le_refl n), hr0]
      have hroom : n * W + W ≤ pixels.length := by
        have h : (n + 1) * W ≤ H * W := Nat.mul_le_mul_right W hn
        rw [Nat.add_mul, Nat.mul_comm H W] at h
        omega
      obtain ⟨row', hrun, hw⟩ := writeRow_inner bpp enc (writeBody f pixels) pixels hstep
        W n rows rows0[n] (n * W) hrow (hlen n _ hn hr0) hroom
      refine ⟨⟨rows.set n row', n * W + W⟩, ?_, ?_, ?_, ?_, ?_⟩
      · rw [writeRow_eq f W pixels n ⟨rows, n * W⟩ rows0[n] hrow, hrun]
      · show n * W + W = (n + 1) * W
        ring
      · simp [hl]
      · intro y row0 hy hy0
        by_cases he : y = n
        · subst he
          rw [hr0] at hy0
          cases hy0
          exact ⟨row', get_set_same rows y _ row' hrow, hw⟩
        · obtain ⟨r, hr, hrw⟩ := hdone y row0 (by omega) hy0
          refine ⟨r, ?_, hrw⟩
          show (rows.set n row')[y]? = some r
          rw [List.getElem?_set_ne (by omega), hr]
      · intro y hy
        show (rows.set n row')[y]? = rows0[y]?
        rw [List.getElem?_set_ne (by omega)]
        exact hrest y (by omega))
  obtain ⟨s, hs, _, hl, hdone, hrest⟩ := key
  exact ⟨s, hs, hl, hdone, hrest⟩

/-! ## Lanes of a packed pixel -/

theorem shl32_of_byte (a k : Nat) (ha : a < 256) (hk : k ≤ 24) : shl32 a k = a <<< k := by
  unfold shl32
  apply Nat.mod_eq_of_lt
  rw [Nat.shiftLeft_eq]
  calc a * 2 ^ k ≤ a * 2 ^ 24 := Nat.mul_le_mul_left a (Nat.pow_le_pow_right (by omega) hk)
    _ < 2 ^ 32 := by norm_num; omega

theorem packARGB_raw (A R G B : Nat) (hA : A < 256) (hR : R < 256) (hG : G < 256) :
    packARGB A R G B = (A <<< 24) ||| (R <<< 16) ||| (G <<< 8) ||| B := by
  unfold packARGB
  rw [shl32_of_byte A 24 hA (by omega), shl32_of_byte R 16 hR (by omega),
    shl32_of_byte G 8 hG (by omega)]

theorem packOpaque_raw (R G B : Nat) (hR : R < 256) (hG : G < 256) :
    packOpaque R G B = 0xFF000000 ||| (R <<< 16) ||| (G <<< 8) ||| B := by
  unfold packOpaque
  rw [shl32_of_byte R 16 hR (by omega), shl32_of_byte G 8 hG (by omega)]
  rfl

theorem lanes_packARGB (A R G B : Nat) (hA : A < 256) (hR : R < 256) (hG : G < 256)
    (hB : B < 256) :
    laneA (packARGB A R G B) = A ∧ laneR (packARGB A R G B) = R ∧
      laneG (packARGB A R G B) = G ∧ laneB (packARGB A R G B) = B := by
  rw [laneA_eq, laneR_eq, laneG_eq, laneB_eq, packARGB_eq A R G B hA hR hG hB]
  omega

theorem lanes_packOpaque (R G B : Nat) (hR : R < 256) (hG : G < 256) (hB : B < 256) :
    laneA (packOpaque R G B) = 255 ∧ laneR (packOpaque R G B) = R ∧
      laneG (packOpaque R G B) = G ∧ laneB (packOpaque R G B) = B := by
  rw [packOpaque_eq_packARGB R G B hR hG hB]
  exact lanes_packARGB 255 R G B (by omega) hR hG hB

theorem packARGB_lanes (p : Nat) (hp : p < 2 ^ 32) :
    packARGB (laneA p) (laneR p) (laneG p) (laneB p) = p := by
  have hp' : p < 4294967296 := by simpa using hp
  rw [packARGB_eq _ _ _ _ (by rw [laneA_eq]; omega) (by rw [laneR_eq]; omega)
    (by rw [laneG_eq]; omega) (by rw [laneB_eq]; omega),
    laneA_eq, laneR_eq, laneG_eq, laneB_eq]
  omega

theorem packARGB_lt (A R G B : Nat) (hA : A < 256) (hR : R < 256) (hG : G < 256)
    (hB : B < 256) : packARGB A R G B < 2 ^ 32 := by
  rw [packARGB_eq A R G B hA hR hG hB]
  norm_num
  omega

/-! ## Decoding: claims C2, C3 and C4 -/

/-- C2. Decode of `PNG_COLOR_TYPE_RGBA` rows: for `height` rows of at least
`4 * width` bytes the marshaling of `read_png_file` runs to its end, the buffer
keeps its `width * height` elements, and element `y * width + x` is
`(A << 24) | (R << 16) | (G << 8) | B` for the bytes `R, G, B, A` of row `y` at
offsets `4x .. 4x + 3`; in particular it is
`(255 << 24) | ((x mod 256) << 16) | ((y mod 256) << 8) | 0` when those bytes are
`x mod 256, y mod 256, 0, 255`. -/
theorem decode_rgba_index (W H : Nat) (rows : List (List Nat)) (buf : List Nat)
    (hrows : rows.length = H) (hlen : ∀ row ∈ rows, 4 * W ≤ row.length)
    (hbytes : ∀ row ∈ rows, IsBytes row) (hbuf : buf.length = W * H) :
    ∃ pix, read_marshal PNG_COLOR_TYPE_RGBA W H rows buf = .done pix ∧
      pix.length = W * H ∧
      (∀ x y row R G B A, x < W → y < H → rows[y]? = some row →
        row[4 * x]? = some R → row[4 * x + 1]? = some G → row[4 * x + 2]? = some B →
        row[4 * x + 3]? = some A →
        pix[y * W + x]? = some ((A <<< 24) ||| (R <<< 16) ||| (G <<< 8) ||| B)) ∧
      (∀ x y row, x < W → y < H → rows[y]? = some row →
        row[4 * x]? = some (x % 256) → row[4 * x + 1]? = some (y % 256) →
        row[4 * x + 2]? = some 0 → row[4 * x + 3]? = some 255 →
        pix[y * W + x]? =
          some ((255 <<< 24) ||| ((x % 256) <<< 16) ||| ((y % 256) <<< 8) ||| 0)) := by
  obtain ⟨s, hs, hl, hv⟩ := readLoop_rgba W H rows buf hrows hlen hbuf
  have main : ∀ x y row R G B A, x < W → y < H → rows[y]? = some row →
      row[4 * x]? = some R → row[4 * x + 1]? = some G → row[4 * x + 2]? = some B →
      row[4 * x + 3]? = some A →
      s.pixels[y * W + x]? = some ((A <<< 24) ||| (R <<< 16) ||| (G <<< 8) ||| B) := by
    intro x y row R G B A hx hy hrow hR hG hB hA
    have hb := hbytes row (List.getElem?_mem hrow)
    rw [hv x y hx hy, byteAt_of_get rows y _ R row hrow hR,
      byteAt_of_get rows y _ G row hrow hG, byteAt_of_get rows y _ B row hrow hB,
      byteAt_of_get rows y _ A row hrow hA,
      packARGB_raw A R G B (hb A (List.getElem?_mem hA)) (hb R (List.getElem?_mem hR))
        (hb G (List.getElem?_mem hG))]
  refine ⟨s.pixels, read_marshal_of_loop _ W H ⟨true, false⟩ rows buf s rfl hs, hl, main, ?_⟩
  intro x y row hx hy hrow hR hG hB hA
  exact main x y row _ _ _ _ hx hy hrow hR hG hB hA

/-- Witness of C2: a 2 x 2 image whose pixel `(x, y)` has the bytes `x, y, 0, 255`. -/
theorem decode_rgba_index_witness :
    ∃ pix, read_marshal PNG_COLOR_TYPE_RGBA 2 2
        [[0, 0, 0, 255, 1, 0, 0, 255], [0, 1, 0, 255, 1, 1, 0, 255]] [7, 7, 7, 7]
        = .done pix ∧
      pix.length = 2 * 2 ∧
      (∀ x y row R G B A, x < 2 → y < 2 →
        [[0, 0, 0, 255, 1, 0, 0, 255], [0, 1, 0, 255, 1, 1, 0, 255]][y]? = some row →
        row[4 * x]? = some R → row[4 * x + 1]? = some G → row[4 * x + 2]? = some B →
        row[4 * x + 3]? = some A →
        pix[y * 2 + x]? = some ((A <<< 24) ||| (R <<< 16) ||| (G <<< 8) ||| B)) ∧
      (∀ x y row, x < 2 → y < 2 →
        [[0, 0, 0, 255, 1, 0, 0, 255], [0, 1, 0, 255, 1, 1, 0, 255]][y]? = some row →
        row[4 * x]? = some (x % 256) → row[4 * x + 1]? = some (y % 256) →
        row[4 * x + 2]? = some 0 → row[4 * x + 3]? = some 255 →
        pix[y * 2 + x]? =
          some ((255 <<< 24) ||| ((x % 256) <<< 16) ||| ((y % 256) <<< 8) ||| 0)) :=
  decode_rgba_index 2 2 [[0, 0, 0, 255, 1, 0, 0, 255], [0, 1, 0, 255, 1, 1, 0, 255]]
    [7, 7, 7, 7] (by decide) (by decide) (by decide) (by decide)

/-- C3. Decode of `PNG_COLOR_TYPE_RGB` rows: for `height` rows of at least
`3 * width` bytes the marshaling of `read_png_file` runs to its end and the pixel
at index `y * width + x` is `0xFF000000 | (R << 16) | (G << 8) | B` for the bytes
`R, G, B` of row `y` at offsets `3x, 3x + 1, 3x + 2`: its alpha lane is `0xFF`, its
red, green and blue lanes are `R`, `G` and `B`. -/
theorem decode_rgb_pixel (W H : Nat) (rows : List (List Nat)) (buf : List Nat)
    (hrows : rows.length = H) (hlen : ∀ row ∈ rows, 3 * W ≤ row.length)
    (hbytes : ∀ row ∈ rows, IsBytes row) (hbuf : buf.length = W * H) :
    ∃ pix, read_marshal PNG_COLOR_TYPE_RGB W H rows buf = .done pix ∧
      pix.length = W * H ∧
      ∀ x y row R G B, x < W → y < H → rows[y]? = some row →
        row[3 * x]? = some R → row[3 * x + 1]? = some G → row[3 * x + 2]? = some B →
        ∃ p, pix[y * W + x]? = some p ∧
          p = 0xFF000000 ||| (R <<< 16) ||| (G <<< 8) ||| B ∧ p < 2 ^ 32 ∧
          laneA p = 0xFF ∧ laneR p = R ∧ laneG p = G ∧ laneB p = B := by
  obtain ⟨s, hs, hl, hv⟩ := readLoop_rgb W H rows buf hrows hlen hbuf
  refine ⟨s.pixels, read_marshal_of_loop _ W H ⟨false, false⟩ rows buf s rfl hs, hl, ?_⟩
  intro x y row R G B hx hy hrow hR hG hB
  have hb := hbytes row (List.getElem?_mem hrow)
  have bR := hb R (List.getElem?_mem hR)
  have bG := hb G (List.getElem?_mem hG)
  have bB := hb B (List.getElem?_mem hB)
  refine ⟨packOpaque R G B, ?_, packOpaque_raw R G B bR bG, ?_, lanes_packOpaque R G B bR bG bB⟩
  · rw [hv x y hx hy, byteAt_of_get rows y _ R row hrow hR,
      byteAt_of_get rows y _ G row hrow hG, byteAt_of_get rows y _ B row hrow hB]
  · rw [packOpaque_eq_packARGB R G B bR bG bB]
    exact packARGB_lt 255 R G B (by omega) bR bG bB

/-- Witness of C3: the 2 x 1 image with the row bytes `10, 20, 30, 40, 50, 60`. -/
theorem decode_rgb_pixel_witness :
    ∃ pix, read_marshal PNG_COLOR_TYPE_RGB 2 1 [[10, 20, 30, 40, 50, 60]] [0, 0]
        = .done pix ∧
      pix.length = 2 * 1 ∧
      ∀ x y row R G B, x < 2 → y < 1 → [[10, 20, 30, 40, 50, 60]][y]? = some row →
        row[3 * x]? = some R → row[3 * x + 1]? = some G → row[3 * x + 2]? = some B →
        ∃ p, pix[y * 2 + x]? = some p ∧
          p = 0xFF000000 ||| (R <<< 16) ||| (G <<< 8) ||| B ∧ p < 2 ^ 32 ∧
          laneA p = 0xFF ∧ laneR p = R ∧ laneG p = G ∧ laneB p = B :=
  decode_rgb_pixel 2 1 [[10, 20, 30, 40, 50, 60]] [0, 0] (by decide) (by decide)
    (by decide) (by decide)

/-- C4. Decode of `PNG_COLOR_TYPE_GRAY` rows: for `height` rows of at least `width`
bytes the marshaling of `read_png_file` runs to its end and the pixel at index
`y * width + x` is `0xFF000000 | (g << 16) | (g << 8) | g` for the byte `g` of row
`y` at offset `x`: its alpha lane is `0xFF` and its red, green and blue lanes are
all `g`. -/
theorem decode_gray_pixel (W H : Nat) (rows : List (List Nat)) (buf : List Nat)
    (hrows : rows.length = H) (hlen : ∀ row ∈ rows, W ≤ row.length)
    (hbytes : ∀ row ∈ rows, IsBytes row) (hbuf : buf.length = W * H) :
    ∃ pix, read_marshal PNG_COLOR_TYPE_GRAY W H rows buf = .done pix ∧
      pix.length = W * H ∧
      ∀ x y row g, x < W → y < H → rows[y]? = some row → row[x]? = some g →
        ∃ p, pix[y * W + x]? = some p ∧
          p = 0xFF000000 ||| (g <<< 16) ||| (g <<< 8) ||| g ∧ p < 2 ^ 32 ∧
          laneA p = 0xFF ∧ laneR p = g ∧ laneG p = g ∧ laneB p = g := by
  obtain ⟨s, hs, hl, hv⟩ := readLoop_gray W H rows buf hrows hlen hbuf
  refine ⟨s.pixels, read_marshal_of_loop _ W H ⟨false, true⟩ rows buf s rfl hs, hl, ?_⟩
  intro x y row g hx hy hrow hg
  have bg := hbytes row (List.getElem?_mem hrow) g (List.getElem?_mem hg)
  refine ⟨packOpaque g g g, ?_, packOpaque_raw g g g bg bg, ?_, lanes_packOpaque g g g bg bg bg⟩
  · rw [hv x y hx hy, byteAt_of_get rows y _ g row hrow hg]
  · rw [packOpaque_eq_packARGB g g g bg bg bg]
    exact packARGB_lt 255 g g g (by omega) bg bg bg

/-- Witness of C4: a 2 x 2 grayscale image. -/
theorem decode_gray_pixel_witness :
    ∃ pix, read_marshal PNG_COLOR_TYPE_GRAY 2 2 [[7, 200], [0, 255]] [1, 2, 3, 4]
        = .done pix ∧
      pix.length = 2 * 2 ∧
      ∀ x y row g, x < 2 → y < 2 → [[7, 200], [0, 255]][y]? = some row →
        row[x]? = some g →
        ∃ p, pix[y * 2 + x]? = some p ∧
          p = 0xFF000000 ||| (g <<< 16) ||| (g <<< 8) ||| g ∧ p < 2 ^ 32 ∧
          laneA p = 0xFF ∧ laneR p = g ∧ laneG p = g ∧ laneB p = g :=
  decode_gray_pixel 2 2 [[7, 200], [0, 255]] [1, 2, 3, 4] (by decide) (by decide)
    (by decide) (by decide)

/-! ## The write loop, per colour type -/

theorem bytesPerPixel_pos (ct : Nat) : 0 < bytesPerPixel ct := by
  unfold bytesPerPixel
  split
  · omega
  · split <;> omega

theorem write_marshal_spec (ct W H : Nat) (hct : Supported ct) (pix : List Nat)
    (rows0 : List (List Nat)) (hrows : H ≤ rows0.length)
    (hlen : ∀ row ∈ rows0, bytesPerPixel ct * W ≤ row.length)
    (hpix : W * H ≤ pix.length) :
    ∃ rows, write_marshal ct W H pix rows0 = .done rows ∧ rows.length = rows0.length ∧
      (∀ y row0, y < H → rows0[y]? = some row0 →
        ∃ row', rows[y]? = some row' ∧
          RowWritten (bytesPerPixel ct) (encOf ct) pix W (y * W) row0 row') ∧
      ∀ y, H ≤ y → rows[y]? = rows0[y]? := by
  rcases hct with h | h | h <;> subst h
  · obtain ⟨s, hs, hl, hd, hr⟩ := writeLoop_spec 1 encGray ⟨false, true⟩ pix
      (writeGray_step pix) W H rows0 hrows
      (fun _ row _ h => hlen row (List.getElem?_mem h)) hpix
    exact ⟨s.rows, by simp [write_marshal, write_classify, PNG_COLOR_TYPE_GRAY,
      PNG_COLOR_TYPE_RGB, PNG_COLOR_TYPE_RGBA, Outcome.bind, hs], hl, hd, hr⟩
  · obtain ⟨s, hs, hl, hd, hr⟩ := writeLoop_spec 3 encRGB ⟨false, false⟩ pix
      (writeRGB_step pix) W H rows0 hrows
      (fun _ row _ h => hlen row (List.getElem?_mem h)) hpix
    exact ⟨s.rows, by simp [write_marshal, write_classify, PNG_COLOR_TYPE_GRAY,
      PNG_COLOR_TYPE_RGB, PNG_COLOR_TYPE_RGBA, Outcome.bind, hs], hl, hd, hr⟩
  · obtain ⟨s, hs, hl, hd, hr⟩ := writeLoop_spec 4 encRGBA ⟨true, false⟩ pix
      (writeRGBA_step pix) W H rows0 hrows
      (fun _ row _ h => hlen row (List.getElem?_mem h)) hpix
    exact ⟨s.rows, by simp [write_marshal, write_classify, PNG_COLOR_TYPE_GRAY,
      PNG_COLOR_TYPE_RGB, PNG_COLOR_TYPE_RGBA, Outcome.bind, hs], hl, hd, hr⟩

theorem rowWritten_unique (bpp : Nat) (enc enc' : Nat → Nat → Nat)
    (pixels pixels' : List Nat) (W p0 : Nat) (row0 row' row'' : List Nat)
    (hbpp : 0 < bpp) (h' : RowWritten bpp enc pixels W p0 row0 row')
    (h'' : RowWritten bpp enc' pixels' W p0 row0 row'')
    (hagree : ∀ x k, x < W → k < bpp → ∃ pixel pixel', pixels[p0 + x]? = some pixel ∧
      pixels'[p0 + x]? = some pixel' ∧ enc pixel k = enc' pixel' k) :
    row' = row'' := by
  apply List.ext_getElem?
  intro i
  by_cases hi : i < bpp * W
  · have hx : i / bpp < W := Nat.div_lt_of_lt_mul hi
    have hk : i % bpp < bpp := Nat.mod_lt i hbpp
    have e : bpp * (i / bpp) + i % bpp = i := Nat.div_add_mod i bpp
    obtain ⟨pixel, pixel', hp, hp', he⟩ := hagree (i / bpp) (i % bpp) hx hk
    have a := h'.2.1 (i / bpp) (i % bpp) pixel hx hk hp
    have b := h''.2.1 (i / bpp) (i % bpp) pixel' hx hk hp'
    rw [e] at a b
    rw [a, b, he]
  · rw [h'.2.2 i (by omega), h''.2.2 i (by omega)]

theorem rows_ext (H : Nat) (rows rows' : List (List Nat))
    (hsome : ∀ y, y < H → ∃ row, rows[y]? = some row ∧ rows'[y]? = some row)
    (hrest : ∀ y, H ≤ y → rows[y]? = rows'[y]?) : rows = rows' := by
  apply List.ext_getElem?
  intro y
  by_cases hy : y < H
  · obtain ⟨row, h, h'⟩ := hsome y hy
    rw [h, h']
  · exact hrest y (by omega)

theorem lane_lt (p : Nat) :
    laneA p < 256 ∧ laneR p < 256 ∧ laneG p < 256 ∧ laneB p < 256 := by
  rw [laneA_eq, laneR_eq, laneG_eq, laneB_eq]
  omega

theorem toByte_of_lt (v : Nat) (h : v < 256) : toByte v = v := Nat.mod_eq_of_lt h

theorem pixel_get (W H x y : Nat) (pix : List Nat) (hpix : pix.length = W * H)
    (hx : x < W) (hy : y < H) : ∃ p, pix[y * W + x]? = some p :=
  ⟨_, List.getElem?_eq_getElem (by rw [hpix]; exact cell_lt W H x y hx hy)⟩

/-! ## The read loop, per colour type -/

theorem read_marshal_spec (ct W H : Nat) (hct : Supported ct) (rows : List (List Nat))
    (buf : List Nat) (hrows : rows.length = H)
    (hlen : ∀ row ∈ rows, bytesPerPixel ct * W ≤ row.length)
    (hbuf : buf.length = W * H) :
    ∃ pix, read_marshal ct W H rows buf = .done pix ∧ pix.length = W * H ∧
      ∀ x y, x < W → y < H → pix[y * W + x]? = some (decOf ct rows y x) := by
  rcases hct with h | h | h <;> subst h
  · obtain ⟨s, hs, hl, hv⟩ := readLoop_gray W H rows buf hrows
      (fun row hr => by simpa [bytesPerPixel, PNG_COLOR_TYPE_GRAY, PNG_COLOR_TYPE_RGB,
        PNG_COLOR_TYPE_RGBA] using hlen row hr) hbuf
    exact ⟨s.pixels, read_marshal_of_loop _ W H ⟨false, true⟩ rows buf s rfl hs, hl, hv⟩
  · obtain ⟨s, hs, hl, hv⟩ := readLoop_rgb W H rows buf hrows hlen hbuf
    exact ⟨s.pixels, read_marshal_of_loop _ W H ⟨false, false⟩ rows buf s rfl hs, hl, hv⟩
  · obtain ⟨s, hs, hl, hv⟩ := readLoop_rgba W H rows buf hrows hlen hbuf
    exact ⟨s.pixels, read_marshal_of_loop _ W H ⟨true, false⟩ rows buf s rfl hs, hl, hv⟩

theorem enc_dec (ct : Nat) (hct : Supported ct) (rows : List (List Nat)) (y x k : Nat)
    (hbytes : ∀ row ∈ rows, IsBytes row) (hk : k < bytesPerPixel ct) :
    encOf ct (decOf ct rows y x) k = byteAt rows y (bytesPerPixel ct * x + k) := by
  have hb := fun i => byteAt_lt rows y i hbytes
  rcases hct with h | h | h <;> subst h
  · have hk0 : k = 0 := by
      simp [bytesPerPixel, PNG_COLOR_TYPE_GRAY, PNG_COLOR_TYPE_RGB,
        PNG_COLOR_TYPE_RGBA] at hk
      exact hk
    subst hk0
    have hl := lanes_packOpaque _ _ _ (hb x) (hb x) (hb x)
    simp [encOf, decOf, bytesPerPixel, PNG_COLOR_TYPE_GRAY, PNG_COLOR_TYPE_RGB,
      PNG_COLOR_TYPE_RGBA, encGray, hl.2.2.2, toByte_of_lt _ (hb x)]
  · have hk3 : k = 0 ∨ k = 1 ∨ k = 2 := by
      simp [bytesPerPixel, PNG_COLOR_TYPE_RGB, PNG_COLOR_TYPE_RGBA] at hk
      omega
    have hl := lanes_packOpaque _ _ _ (hb (3 * x)) (hb (3 * x + 1)) (hb (3 * x + 2))
    rcases hk3 with e | e | e <;> subst e <;>
      simp [encOf, decOf, bytesPerPixel, PNG_COLOR_TYPE_RGB, PNG_COLOR_TYPE_RGBA, encRGB,
        hl.2.1, hl.2.2.1, hl.2.2.2, toByte_of_lt _ (hb _)]
  · have hk4 : k = 0 ∨ k = 1 ∨ k = 2 ∨ k = 3 := by
      simp [bytesPerPixel, PNG_COLOR_TYPE_RGBA] at hk
      omega
    have hl := lanes_packARGB _ _ _ _ (hb (4 * x + 3)) (hb (4 * x)) (hb (4 * x + 1))
      (hb (4 * x + 2))
    rcases hk4 with e | e | e | e <;> subst e <;>
      simp [encOf, decOf, bytesPerPixel, PNG_COLOR_TYPE_RGBA, encRGBA,
        hl.1, hl.2.1, hl.2.2.1, hl.2.2.2, toByte_of_lt _ (hb _)]

/-! ## Round trip: claim C1 -/

/-- C1. Round trip: for every width, height, supported colour type and `height`
rows of exactly `width * bytes-per-pixel` bytes, the read loop of `read_png_file`
followed at once by the write loop of `write_png_file` (into fresh buffers of the
same stride, whatever they hold) runs to its end and reproduces the rows exactly. -/
theorem marshal_roundtrip (ct W H : Nat) (hct : Supported ct) (rows : List (List Nat))
    (buf : List Nat) (rows0 : List (List Nat)) (hrows : rows.length = H)
    (hstride : ∀ row ∈ rows, row.length = W * bytesPerPixel ct)
    (hbytes : ∀ row ∈ rows, IsBytes row) (hbuf : buf.length = W * H)
    (hrows0 : rows0.length = H)
    (hstride0 : ∀ row ∈ rows0, row.length = W * bytesPerPixel ct) :
    ∃ pix, read_marshal ct W H rows buf = .done pix ∧
      write_marshal ct W H pix rows0 = .done rows := by
  obtain ⟨pix, hread, hpl, hpv⟩ := read_marshal_spec ct W H hct rows buf hrows
    (fun row hr => by rw [hstride row hr, Nat.mul_comm]) hbuf
  obtain ⟨out, hwrite, hol, hod, hor⟩ := write_marshal_spec ct W H hct pix rows0
    (by omega) (fun row hr => by rw [hstride0 row hr, Nat.mul_comm]) (by omega)
  refine ⟨pix, hread, ?_⟩
  rw [hwrite]
  congr 1
  apply rows_ext H
  · intro y hy
    have hy0 : rows0[y]? = some rows0[y] := List.getElem?_eq_getElem (by omega)
    have hyr : rows[y]? = some rows[y] := List.getElem?_eq_getElem (by omega)
    obtain ⟨row', hrow', hw⟩ := hod y _ hy hy0
    have hlr := hstride _ (List.getElem?_mem hyr)
    have hl0 := hstride0 _ (List.getElem?_mem hy0)
    have horig : RowWritten (bytesPerPixel ct) (encOf ct) pix W (y * W) rows0[y] rows[y] := by
      refine ⟨by omega, ?_, ?_⟩
      · intro x k pixel hx hk hp
        rw [hpv x y hx hy] at hp
        cases hp
        rw [enc_dec ct hct rows y x k hbytes hk]
        apply byteAt_eq rows y _ _ hyr
        rw [hlr, Nat.mul_comm W]
        exact offset_lt _ x W k hx hk
      · intro i hi
        rw [List.getElem?_eq_none (by rw [hlr, Nat.mul_comm]; exact hi),
          List.getElem?_eq_none (by rw [hl0, Nat.mul_comm]; exact hi)]
    refine ⟨rows[y], ?_, hyr⟩
    rw [hrow']
    congr 1
    apply rowWritten_unique _ _ _ pix pix W (y * W) rows0[y] _ _ (bytesPerPixel_pos ct)
      hw horig
    intro x k hx hk
    obtain ⟨p, hp⟩ := pixel_get W H x y pix hpl hx hy
    exact ⟨p, p, hp, hp, rfl⟩
  · intro y hy
    rw [hor y hy, List.getElem?_eq_none (by omega), List.getElem?_eq_none (by omega)]

/-- Witness of C1: a 2 x 2 RGBA image, marshaled in and out again. -/
theorem marshal_roundtrip_witness :
    ∃ pix, read_marshal PNG_COLOR_TYPE_RGBA 2 2
        [[1, 2, 3, 4, 5, 6, 7, 8], [255, 0, 128, 9, 10, 11, 12, 13]] [0, 0, 0, 0]
        = .done pix ∧
      write_marshal PNG_COLOR_TYPE_RGBA 2 2 pix
        [[0, 0, 0, 0, 0, 0, 0, 0], [9, 9, 9, 9, 9, 9, 9, 9]]
        = .done [[1, 2, 3, 4, 5, 6, 7, 8], [255, 0, 128, 9, 10, 11, 12, 13]] :=
  marshal_roundtrip PNG_COLOR_TYPE_RGBA 2 2 (by decide)
    [[1, 2, 3, 4, 5, 6, 7, 8], [255, 0, 128, 9, 10, 11, 12, 13]] [0, 0, 0, 0]
    [[0, 0, 0, 0, 0, 0, 0, 0], [9, 9, 9, 9, 9, 9, 9, 9]]
    (by decide) (by decide) (by decide) (by decide) (by decide) (by decide)

/-! ## Encoding: claims C5 and C6 -/

theorem write_marshal_congr (ct W H : Nat) (hct : Supported ct) (pix pix' : List Nat)
    (rows0 : List (List Nat)) (hrows : rows0.length = H)
    (hlen : ∀ row ∈ rows0, bytesPerPixel ct * W ≤ row.length)
    (hpix : pix.length = W * H) (hpix' : pix'.length = W * H)
    (hagree : ∀ (i : Nat) p p' k, pix[i]? = some p → pix'[i]? = some p' → k < bytesPerPixel ct →
      encOf ct p k = encOf ct p' k) :
    write_marshal ct W H pix rows0 = write_marshal ct W H pix' rows0 := by
  obtain ⟨out, hw, hl, hd, hr⟩ := write_marshal_spec ct W H hct pix rows0 (by omega) hlen
    (by omega)
  obtain ⟨out', hw', hl', hd', hr'⟩ := write_marshal_spec ct W H hct pix' rows0 (by omega)
    hlen (by omega)
  rw [hw, hw']
  congr 1
  apply rows_ext H
  · intro y hy
    have hy0 : rows0[y]? = some rows0[y] := List.getElem?_eq_getElem (by omega)
    obtain ⟨row, hrow, hrw⟩ := hd y _ hy hy0
    obtain ⟨row', hrow', hrw'⟩ := hd' y _ hy hy0
    refine ⟨row, hrow, ?_⟩
    rw [hrow']
    congr 1
    apply rowWritten_unique _ _ _ pix' pix W (y * W) rows0[y] _ _ (bytesPerPixel_pos ct)
      hrw' hrw
    intro x k hx hk
    obtain ⟨q, hq⟩ := pixel_get W H x y pix hpix hx hy
    obtain ⟨q', hq'⟩ := pixel_get W H x y pix' hpix' hx hy
    exact ⟨q', q, hq', hq, (hagree _ q q' k hq hq' hk).symm⟩
  · intro y hy
    rw [hr y hy, hr' y hy]

theorem bpp_gray : bytesPerPixel PNG_COLOR_TYPE_GRAY = 1 := rfl

theorem bpp_rgb : bytesPerPixel PNG_COLOR_TYPE_RGB = 3 := rfl

theorem bpp_rgba : bytesPerPixel PNG_COLOR_TYPE_RGBA = 4 := rfl

theorem encOf_gray : encOf PNG_COLOR_TYPE_GRAY = encGray := rfl

theorem encOf_rgb : encOf PNG_COLOR_TYPE_RGB = encRGB := rfl

theorem encOf_rgba : encOf PNG_COLOR_TYPE_RGBA = encRGBA := rfl

theorem encGray_val (p k : Nat) : encGray p k = laneB p := by
  simp [encGray, toByte_of_lt _ (lane_lt p).2.2.2]

theorem encRGB_val (p : Nat) :
    encRGB p 0 = laneR p ∧ encRGB p 1 = laneG p ∧ encRGB p 2 = laneB p := by
  have hb := lane_lt p
  simp [encRGB, toByte_of_lt _ hb.2.1, toByte_of_lt _ hb.2.2.1, toByte_of_lt _ hb.2.2.2]

theorem encRGBA_val (p : Nat) :
    encRGBA p 0 = laneR p ∧ encRGBA p 1 = laneG p ∧ encRGBA p 2 = laneB p ∧
      encRGBA p 3 = laneA p := by
  have hb := lane_lt p
  simp [encRGBA, toByte_of_lt _ hb.1, toByte_of_lt _ hb.2.1, toByte_of_lt _ hb.2.2.1,
    toByte_of_lt _ hb.2.2.2]

theorem flat_index (W H i : Nat) (hi : i < W * H) :
    i % W < W ∧ i / W < H ∧ i / W * W + i % W = i := by
  have hW : 0 < W := by
    rcases Nat.eq_zero_or_pos W with h | h
    · subst h; simp at hi
    · exact h
  refine ⟨Nat.mod_lt i hW, Nat.div_lt_of_lt_mul hi, ?_⟩
  rw [Nat.mul_comm]
  exact Nat.div_add_mod i W

theorem written_rows_len (bpp : Nat) (enc : Nat → Nat → Nat) (pix : List Nat) (W H : Nat)
    (rows0 rows : List (List Nat)) (hrows0 : rows0.length = H)
    (hlen : ∀ row ∈ rows0, bpp * W ≤ row.length) (hl : rows.length = rows0.length)
    (hd : ∀ y row0, y < H → rows0[y]? = some row0 →
      ∃ row', rows[y]? = some row' ∧ RowWritten bpp enc pix W (y * W) row0 row') :
    ∀ row ∈ rows, bpp * W ≤ row.length := by
  intro row hrow
  obtain ⟨y, hy⟩ := List.mem_iff_getElem?.mp hrow
  have hyl : y < rows.length := by
    by_contra hc
    rw [List.getElem?_eq_none (by omega)] at hy
    cases hy
  have hy0 : rows0[y]? = some rows0[y] := List.getElem?_eq_getElem (by omega)
  obtain ⟨row', hrow', hlen', _⟩ := hd y _ (by omega) hy0
  rw [hy] at hrow'
  cases hrow'
  rw [hlen']
  exact hlen _ (List.getElem?_mem hy0)

theorem write_rgba_lanes (W H : Nat) (pix : List Nat) (rowsA : List (List Nat))
    (hpix : pix.length = W * H) (hA : rowsA.length = H)
    (hAlen : ∀ row ∈ rowsA, 4 * W ≤ row.length) :
    ∃ rows, write_marshal PNG_COLOR_TYPE_RGBA W H pix rowsA = .done rows ∧
      rows.length = H ∧ (∀ row ∈ rows, 4 * W ≤ row.length) ∧
      ∀ x y p, x < W → y < H → pix[y * W + x]? = some p →
        ∃ row, rows[y]? = some row ∧ row[4 * x]? = some (laneR p) ∧
          row[4 * x + 1]? = some (laneG p) ∧ row[4 * x + 2]? = some (laneB p) ∧
          row[4 * x + 3]? = some (laneA p) := by
  obtain ⟨rows, hw, hl, hd, _⟩ := write_marshal_spec PNG_COLOR_TYPE_RGBA W H
    (Or.inr (Or.inr rfl)) pix rowsA (by omega) hAlen (by omega)
  refine ⟨rows, hw, by omega, written_rows_len _ _ pix W H rowsA rows hA hAlen hl hd, ?_⟩
  intro x y p hx hy hp
  have hy0 : rowsA[y]? = some rowsA[y] := List.getElem?_eq_getElem (by omega)
  obtain ⟨row, hrow, _, hv, _⟩ := hd y _ hy hy0
  rw [bpp_rgba, encOf_rgba] at hv
  have he := encRGBA_val p
  have h0 := hv x 0 p hx (by decide) hp
  have h1 := hv x 1 p hx (by decide) hp
  have h2 := hv x 2 p hx (by decide) hp
  have h3 := hv x 3 p hx (by decide) hp
  rw [he.1] at h0
  rw [he.2.1] at h1
  rw [he.2.2.1] at h2
  rw [he.2.2.2] at h3
  exact ⟨row, hrow, h0, h1, h2, h3⟩

theorem write_rgb_lanes (W H : Nat) (pix : List Nat) (rowsB : List (List Nat))
    (hpix : pix.length = W * H) (hB : rowsB.length = H)
    (hBlen : ∀ row ∈ rowsB, 3 * W ≤ row.length) :
    ∃ rows, write_marshal PNG_COLOR_TYPE_RGB W H pix rowsB = .done rows ∧
      rows.length = H ∧ (∀ row ∈ rows, 3 * W ≤ row.length) ∧
      ∀ x y p, x < W → y < H → pix[y * W + x]? = some p →
        ∃ row, rows[y]? = some row ∧ row[3 * x]? = some (laneR p) ∧
          row[3 * x + 1]? = some (laneG p) ∧ row[3 * x + 2]? = some (laneB p) := by
  obtain ⟨rows, hw, hl, hd, _⟩ := write_marshal_spec PNG_COLOR_TYPE_RGB W H
    (Or.inr (Or.inl rfl)) pix rowsB (by omega) hBlen (by omega)
  refine ⟨rows, hw, by omega, written_rows_len _ _ pix W H rowsB rows hB hBlen hl hd, ?_⟩
  intro x y p hx hy hp
  have hy0 : rowsB[y]? = some rowsB[y] := List.getElem?_eq_getElem (by omega)
  obtain ⟨row, hrow, _, hv, _⟩ := hd y _ hy hy0
  rw [bpp_rgb, encOf_rgb] at hv
  have he := encRGB_val p
  have h0 := hv x 0 p hx (by decide) hp
  have h1 := hv x 1 p hx (by decide) hp
  have h2 := hv x 2 p hx (by decide) hp
  rw [he.1] at h0
  rw [he.2.1] at h1
  rw [he.2.2] at h2
  exact ⟨row, hrow, h0, h1, h2⟩

theorem write_gray_lanes (W H : Nat) (pix : List Nat) (rowsG : List (List Nat))
    (hpix : pix.length = W * H) (hG : rowsG.length = H)
    (hGlen : ∀ row ∈ rowsG, W ≤ row.length) :
    ∃ rows, write_marshal PNG_COLOR_TYPE_GRAY W H pix rowsG = .done rows ∧
      rows.length = H ∧ (∀ row ∈ rows, W ≤ row.length) ∧
      ∀ x y p, x < W → y < H → pix[y * W + x]? = some p →
        ∃ row, rows[y]? = some row ∧ row[x]? = some (laneB p) := by
  have hGlen' : ∀ row ∈ rowsG, bytesPerPixel PNG_COLOR_TYPE_GRAY * W ≤ row.length := by
    intro row hr
    rw [bpp_gray, Nat.one_mul]
    exact hGlen row hr
  obtain ⟨rows, hw, hl, hd, _⟩ := write_marshal_spec PNG_COLOR_TYPE_GRAY W H
    (Or.inl rfl) pix rowsG (by omega) hGlen' (by omega)
  have hlen := written_rows_len _ _ pix W H rowsG rows hG hGlen' hl hd
  rw [bpp_gray, Nat.one_mul] at hlen
  refine ⟨rows, hw, by omega, hlen, ?_⟩
  intro x y p hx hy hp
  have hy0 : rowsG[y]? = some rowsG[y] := List.getElem?_eq_getElem (by omega)
  obtain ⟨row, hrow, _, hv, _⟩ := hd y _ hy hy0
  rw [bpp_gray, encOf_gray] at hv
  have h0 := hv x 0 p hx (by decide) hp
  rw [encGray_val, Nat.one_mul, Nat.add_zero] at h0
  exact ⟨row, hrow, h0⟩

/-- C5. Encode of truecolour pixels: for a buffer of `width * height` pixels the
write loop of `write_png_file` runs to its end; with `PNG_COLOR_TYPE_RGBA` row `y`
holds at offsets `4x, 4x + 1, 4x + 2, 4x + 3` the red, green, blue and alpha lanes
of pixel `y * width + x`; with `PNG_COLOR_TYPE_RGB` row `y` holds at offsets
`3x, 3x + 1, 3x + 2` its red, green and blue lanes, and the rows do not depend on
the alpha lanes at all. The read loop takes the lanes from the same offsets: run
on the encoded rows it finds every lane that was written. -/
theorem encode_truecolor_lanes (W H : Nat) (pix : List Nat) (rowsA rowsB : List (List Nat))
    (hpix : pix.length = W * H)
    (hA : rowsA.length = H) (hAlen : ∀ row ∈ rowsA, 4 * W ≤ row.length)
    (hB : rowsB.length = H) (hBlen : ∀ row ∈ rowsB, 3 * W ≤ row.length) :
    (∃ rows, write_marshal PNG_COLOR_TYPE_RGBA W H pix rowsA = .done rows ∧
      rows.length = H ∧
      (∀ x y p, x < W → y < H → pix[y * W + x]? = some p →
        ∃ row, rows[y]? = some row ∧ row[4 * x]? = some (laneR p) ∧
          row[4 * x + 1]? = some (laneG p) ∧ row[4 * x + 2]? = some (laneB p) ∧
          row[4 * x + 3]? = some (laneA p)) ∧
      ∀ buf, buf.length = W * H →
        ∃ pix2, read_marshal PNG_COLOR_TYPE_RGBA W H rows buf = .done pix2 ∧
          ∀ x y p, x < W → y < H → pix[y * W + x]? = some p →
            ∃ p2, pix2[y * W + x]? = some p2 ∧ laneR p2 = laneR p ∧
              laneG p2 = laneG p ∧ laneB p2 = laneB p ∧ laneA p2 = laneA p) ∧
    (∃ rows, write_marshal PNG_COLOR_TYPE_RGB W H pix rowsB = .done rows ∧
      rows.length = H ∧
      (∀ x y p, x < W → y < H → pix[y * W + x]? = some p →
        ∃ row, rows[y]? = some row ∧ row[3 * x]? = some (laneR p) ∧
          row[3 * x + 1]? = some (laneG p) ∧ row[3 * x + 2]? = some (laneB p)) ∧
      (∀ pix', pix'.length = W * H →
        (∀ (i : Nat) p p', pix[i]? = some p → pix'[i]? = some p' →
          laneR p' = laneR p ∧ laneG p' = laneG p ∧ laneB p' = laneB p) →
        write_marshal PNG_COLOR_TYPE_RGB W H pix' rowsB = .done rows) ∧
      ∀ buf, buf.length = W * H →
        ∃ pix2, read_marshal PNG_COLOR_TYPE_RGB W H rows buf = .done pix2 ∧
          ∀ x y p, x < W → y < H → pix[y * W + x]? = some p →
            ∃ p2, pix2[y * W + x]? = some p2 ∧ laneR p2 = laneR p ∧
              laneG p2 = laneG p ∧ laneB p2 = laneB p) := by
  constructor
  · obtain ⟨rows, hw, hl, hlen, hv⟩ := write_rgba_lanes W H pix rowsA hpix hA hAlen
    refine ⟨rows, hw, hl, hv, ?_⟩
    intro buf hbuf
    obtain ⟨s, hs, _, hsv⟩ := readLoop_rgba W H rows buf hl hlen hbuf
    refine ⟨s.pixels, read_marshal_of_loop _ W H ⟨true, false⟩ rows buf s rfl hs, ?_⟩
    intro x y p hx hy hp
    obtain ⟨row, hrow, h0, h1, h2, h3⟩ := hv x y p hx hy hp
    have hb := lane_lt p
    have hl := lanes_packARGB (laneA p) (laneR p) (laneG p) (laneB p) hb.1 hb.2.1
      hb.2.2.1 hb.2.2.2
    refine ⟨_, hsv x y hx hy, ?_⟩
    rw [byteAt_of_get rows y _ _ row hrow h0, byteAt_of_get rows y _ _ row hrow h1,
      byteAt_of_get rows y _ _ row hrow h2, byteAt_of_get rows y _ _ row hrow h3]
    exact ⟨hl.2.1, hl.2.2.1, hl.2.2.2, hl.1⟩
  · obtain ⟨rows, hw, hl, hlen, hv⟩ := write_rgb_lanes W H pix rowsB hpix hB hBlen
    refine ⟨rows, hw, hl, hv, ?_, ?_⟩
    · intro pix' hpix' hsame
      rw [← hw]
      apply write_marshal_congr PNG_COLOR_TYPE_RGB W H (Or.inr (Or.inl rfl)) pix' pix rowsB
        hB hBlen hpix' hpix
      intro i p' p k hp' hp _
      obtain ⟨hR, hG, hBl⟩ := hsame i p p' hp hp'
      rw [encOf_rgb]
      simp only [encRGB, hR, hG, hBl]
    · intro buf hbuf
      obtain ⟨s, hs, _, hsv⟩ := readLoop_rgb W H rows buf hl hlen hbuf
      refine ⟨s.pixels, read_marshal_of_loop _ W H ⟨false, false⟩ rows buf s rfl hs, ?_⟩
      intro x y p hx hy hp
      obtain ⟨row, hrow, h0, h1, h2⟩ := hv x y p hx hy hp
      have hb := lane_lt p
      have hl := lanes_packOpaque (laneR p) (laneG p) (laneB p) hb.2.1 hb.2.2.1 hb.2.2.2
      refine ⟨_, hsv x y hx hy, ?_⟩
      rw [byteAt_of_get rows y _ _ row hrow h0, byteAt_of_get rows y _ _ row hrow h1,
        byteAt_of_get rows y _ _ row hrow h2]
      exact hl.2

/-- Witness of C5: a 2 x 1 buffer, encoded as RGBA and as RGB. -/
theorem encode_truecolor_lanes_witness :
    (∃ rows, write_marshal PNG_COLOR_TYPE_RGBA 2 1 [0x11223344, 0xFFEEDDCC]
        [[0, 0, 0, 0, 0, 0, 0, 0]] = .done rows ∧
      rows.length = 1 ∧
      (∀ x y p, x < 2 → y < 1 → [0x11223344, 0xFFEEDDCC][y * 2 + x]? = some p →
        ∃ row, rows[y]? = some row ∧ row[4 * x]? = some (laneR p) ∧
          row[4 * x + 1]? = some (laneG p) ∧ row[4 * x + 2]? = some (laneB p) ∧
          row[4 * x + 3]? = some (laneA p)) ∧
      ∀ buf, buf.length = 2 * 1 →
        ∃ pix2, read_marshal PNG_COLOR_TYPE_RGBA 2 1 rows buf = .done pix2 ∧
          ∀ x y p, x < 2 → y < 1 → [0x11223344, 0xFFEEDDCC][y * 2 + x]? = some p →
            ∃ p2, pix2[y * 2 + x]? = some p2 ∧ laneR p2 = laneR p ∧
              laneG p2 = laneG p ∧ laneB p2 = laneB p ∧ laneA p2 = laneA p) ∧
    (∃ rows, write_marshal PNG_COLOR_TYPE_RGB 2 1 [0x11223344, 0xFFEEDDCC]
        [[0, 0, 0, 0, 0, 0]] = .done rows ∧
      rows.length = 1 ∧
      (∀ x y p, x < 2 → y < 1 → [0x11223344, 0xFFEEDDCC][y * 2 + x]? = some p →
        ∃ row, rows[y]? = some row ∧ row[3 * x]? = some (laneR p) ∧
          row[3 * x + 1]? = some (laneG p) ∧ row[3 * x + 2]? = some (laneB p)) ∧
      (∀ pix', pix'.length = 2 * 1 →
        (∀ (i : Nat) p p', [0x11223344, 0xFFEEDDCC][i]? = some p → pix'[i]? = some p' →
          laneR p' = laneR p ∧ laneG p' = laneG p ∧ laneB p' = laneB p) →
        write_marshal PNG_COLOR_TYPE_RGB 2 1 pix' [[0, 0, 0, 0, 0, 0]] = .done rows) ∧
      ∀ buf, buf.length = 2 * 1 →
        ∃ pix2, read_marshal PNG_COLOR_TYPE_RGB 2 1 rows buf = .done pix2 ∧
          ∀ x y p, x < 2 → y < 1 → [0x11223344, 0xFFEEDDCC][y * 2 + x]? = some p →
            ∃ p2, pix2[y * 2 + x]? = some p2 ∧ laneR p2 = laneR p ∧
              laneG p2 = laneG p ∧ laneB p2 = laneB p) :=
  encode_truecolor_lanes 2 1 [0x11223344, 0xFFEEDDCC] [[0, 0, 0, 0, 0, 0, 0, 0]]
    [[0, 0, 0, 0, 0, 0]] (by decide) (by decide) (by decide) (by decide) (by decide)

/-- C6. Encode of grayscale pixels takes the blue lane only: byte `x` of row `y` is
`pixel & 0xFF` of pixel `y * width + x`; a second buffer of the same dimensions
whose pixels have the same blue lanes gives the same rows, whatever its other
lanes are, and one that differs in the blue lane of some pixel gives other rows. -/
theorem encode_gray_blue_only (W H : Nat) (pix pix' : List Nat) (rowsG : List (List Nat))
    (hpix : pix.length = W * H) (hpix' : pix'.length = W * H)
    (hG : rowsG.length = H) (hGlen : ∀ row ∈ rowsG, W ≤ row.length) :
    ∃ rows, write_marshal PNG_COLOR_TYPE_GRAY W H pix rowsG = .done rows ∧
      (∀ x y p, x < W → y < H → pix[y * W + x]? = some p →
        ∃ row, rows[y]? = some row ∧ row[x]? = some (p &&& 0xFF)) ∧
      ((∀ (i : Nat) p p', pix[i]? = some p → pix'[i]? = some p' →
          p &&& 0xFF = p' &&& 0xFF) →
        write_marshal PNG_COLOR_TYPE_GRAY W H pix' rowsG = .done rows) ∧
      ((∃ (i : Nat) (p p' : Nat), pix[i]? = some p ∧ pix'[i]? = some p' ∧
          p &&& 0xFF ≠ p' &&& 0xFF) →
        ∃ rows', write_marshal PNG_COLOR_TYPE_GRAY W H pix' rowsG = .done rows' ∧
          rows' ≠ rows) := by
  obtain ⟨rows, hw, hl, hlen, hv⟩ := write_gray_lanes W H pix rowsG hpix hG hGlen
  refine ⟨rows, hw, hv, ?_, ?_⟩
  · intro hsame
    rw [← hw]
    have hGlen' : ∀ row ∈ rowsG, bytesPerPixel PNG_COLOR_TYPE_GRAY * W ≤ row.length := by
      intro row hr
      rw [bpp_gray, Nat.one_mul]
      exact hGlen row hr
    apply write_marshal_congr PNG_COLOR_TYPE_GRAY W H (Or.inl rfl) pix' pix rowsG
      hG hGlen' hpix' hpix
    intro i p' p k hp' hp _
    rw [encOf_gray, encGray_val, encGray_val]
    exact (hsame i p p' hp hp').symm
  · rintro ⟨i, p, p', hp, hp', hne⟩
    obtain ⟨rows', hw', _, _, hv'⟩ := write_gray_lanes W H pix' rowsG hpix' hG hGlen
    refine ⟨rows', hw', ?_⟩
    intro heq
    have hi : i < W * H := by
      by_contra hc
      rw [List.getElem?_eq_none (by omega)] at hp
      cases hp
    obtain ⟨hx, hy, he⟩ := flat_index W H i hi
    rw [← he] at hp hp'
    obtain ⟨row, hrow, hb⟩ := hv _ _ p hx hy hp
    obtain ⟨row', hrow', hb'⟩ := hv' _ _ p' hx hy hp'
    rw [heq, hrow] at hrow'
    cases hrow'
    rw [hb] at hb'
    exact hne (Option.some.inj hb')

/-- Witness of C6: two 2 x 1 buffers with the same blue lanes and different other
lanes. -/
theorem encode_gray_blue_only_witness :
    ∃ rows, write_marshal PNG_COLOR_TYPE_GRAY 2 1 [0x11223344, 0xFFEEDDCC] [[0, 0]]
        = .done rows ∧
      (∀ x y p, x < 2 → y < 1 → [0x11223344, 0xFFEEDDCC][y * 2 + x]? = some p →
        ∃ row, rows[y]? = some row ∧ row[x]? = some (p &&& 0xFF)) ∧
      ((∀ (i : Nat) p p', [0x11223344, 0xFFEEDDCC][i]? = some p →
          [0x00000044, 0x778899CC][i]? = some p' → p &&& 0xFF = p' &&& 0xFF) →
        write_marshal PNG_COLOR_TYPE_GRAY 2 1 [0x00000044, 0x778899CC] [[0, 0]]
          = .done rows) ∧
      ((∃ (i : Nat) (p p' : Nat), [0x11223344, 0xFFEEDDCC][i]? = some p ∧
          [0x00000044, 0x778899CC][i]? = some p' ∧ p &&& 0xFF ≠ p' &&& 0xFF) →
        ∃ rows', write_marshal PNG_COLOR_TYPE_GRAY 2 1 [0x00000044, 0x778899CC] [[0, 0]]
            = .done rows' ∧ rows' ≠ rows) :=
  encode_gray_blue_only 2 1 [0x11223344, 0xFFEEDDCC] [0x00000044, 0x778899CC] [[0, 0]]
    (by decide) (by decide) (by decide) (by decide)

/-! ## `process_file`: claims C7, C8 and C9 -/

theorem process_loop (pix : List Nat) (n : Nat) (hn : n ≤ pix.length) :
    ∃ out, forLoop processStep n pix = .done out ∧ out.length = pix.length ∧
      (∀ i, i < n → out[i]? = pix[i]?.map process_pixel) ∧
      ∀ i, n ≤ i → out[i]? = pix[i]? := by
  have key := forLoop_inv processStep
    (fun k out => out.length = pix.length ∧
      (∀ i, i < k → out[i]? = pix[i]?.map process_pixel) ∧
      ∀ i, k ≤ i → out[i]? = pix[i]?) n pix
    ⟨rfl, by intro i hi; omega, fun _ _ => rfl⟩
    (by
      rintro k hk out ⟨hl, hdone, hrest⟩
      have hk' : k < pix.length := by omega
      have hget : out[k]? = some pix[k] := by
        rw [hrest k (le_refl k), List.getElem?_eq_getElem hk']
      refine ⟨out.set k (process_pixel pix[k]), by simp [processStep, hget], by simp [hl],
        ?_, ?_⟩
      · intro i hi
        by_cases he : i = k
        · subst he
          rw [List.getElem?_set_self (by omega), List.getElem?_eq_getElem hk']
          rfl
        · rw [List.getElem?_set_ne (by omega)]
          exact hdone i (by omega)
      · intro i hi
        rw [List.getElem?_set_ne (by omega)]
        exact hrest i (by omega))
  exact key

theorem process_file_map (W H : Nat) (pix : List Nat) (hpix : pix.length = W * H) :
    process_file W H pix = .done (pix.map process_pixel) := by
  obtain ⟨out, ho, hl, hdone, _⟩ := process_loop pix (W * H) (by omega)
  unfold process_file
  simp only
  rw [ho]
  congr 1
  apply List.ext_getElem?
  intro i
  by_cases hi : i < W * H
  · rw [hdone i hi, List.getElem?_map]
  · rw [List.getElem?_eq_none (by omega), List.getElem?_eq_none (by simp; omega)]

theorem process_pixel_eq (p : Nat) :
    process_pixel p = packARGB (laneA p) (laneB p) (laneG p) (laneR p) := rfl

theorem process_pixel_lanes (p : Nat) :
    laneA (process_pixel p) = laneA p ∧ laneR (process_pixel p) = laneB p ∧
      laneG (process_pixel p) = laneG p ∧ laneB (process_pixel p) = laneR p := by
  have hb := lane_lt p
  rw [process_pixel_eq]
  exact lanes_packARGB _ _ _ _ hb.1 hb.2.2.2 hb.2.2.1 hb.2.1

theorem process_pixel_lt (p : Nat) : process_pixel p < 2 ^ 32 := by
  have hb := lane_lt p
  rw [process_pixel_eq]
  exact packARGB_lt _ _ _ _ hb.1 hb.2.2.2 hb.2.2.1 hb.2.1

theorem process_pixel_twice (p : Nat) (hp : p < 2 ^ 32) :
    process_pixel (process_pixel p) = p := by
  have hl := process_pixel_lanes p
  rw [process_pixel_eq (process_pixel p), hl.1, hl.2.1, hl.2.2.1, hl.2.2.2]
  exact packARGB_lanes p hp

theorem process_pixel_fixed (p : Nat) (hp : p < 2 ^ 32) (h : laneR p = laneB p) :
    process_pixel p = p := by
  rw [process_pixel_eq, ← h]
  nth_rewrite 2 [h]
  exact packARGB_lanes p hp

/-- C7. The transform, pixel by pixel: on a buffer of `width * height` pixels
`process_file` runs to its end, keeps the length, and replaces every element by
`process_pixel` of that element alone, which is `(A << 24) | (B << 16) | (G << 8) | R`
for the lanes `A, R, G, B` of the old pixel: red and blue are exchanged, alpha and
green are kept, for every pixel value. -/
theorem process_file_swaps (W H : Nat) (pix : List Nat) (hpix : pix.length = W * H) :
    ∃ out, process_file W H pix = .done out ∧ out.length = pix.length ∧
      out = pix.map process_pixel ∧
      (∀ (i : Nat) p, pix[i]? = some p → out[i]? = some (process_pixel p)) ∧
      ∀ p, process_pixel p
          = (laneA p <<< 24) ||| (laneB p <<< 16) ||| (laneG p <<< 8) ||| laneR p ∧
        process_pixel p < 2 ^ 32 ∧
        laneR (process_pixel p) = laneB p ∧ laneB (process_pixel p) = laneR p ∧
        laneA (process_pixel p) = laneA p ∧ laneG (process_pixel p) = laneG p := by
  refine ⟨pix.map process_pixel, process_file_map W H pix hpix, by simp, rfl, ?_, ?_⟩
  · intro i p hp
    rw [List.getElem?_map, hp]
    rfl
  · intro p
    have hb := lane_lt p
    have hl := process_pixel_lanes p
    exact ⟨by rw [process_pixel_eq, packARGB_raw _ _ _ _ hb.1 hb.2.2.2 hb.2.2.1],
      process_pixel_lt p, hl.2.1, hl.2.2.2, hl.1, hl.2.2.1⟩

/-- Witness of C7: a 2 x 1 buffer. -/
theorem process_file_swaps_witness :
    ∃ out, process_file 2 1 [0x11223344, 0xFFEEDDCC] = .done out ∧
      out.length = [0x11223344, 0xFFEEDDCC].length ∧
      out = [0x11223344, 0xFFEEDDCC].map process_pixel ∧
      (∀ (i : Nat) p, [0x11223344, 0xFFEEDDCC][i]? = some p →
        out[i]? = some (process_pixel p)) ∧
      ∀ p, process_pixel p
          = (laneA p <<< 24) ||| (laneB p <<< 16) ||| (laneG p <<< 8) ||| laneR p ∧
        process_pixel p < 2 ^ 32 ∧
        laneR (process_pixel p) = laneB p ∧ laneB (process_pixel p) = laneR p ∧
        laneA (process_pixel p) = laneA p ∧ laneG (process_pixel p) = laneG p :=
  process_file_swaps 2 1 [0x11223344, 0xFFEEDDCC] (by decide)

/-- C8. The transform is an involution: `process_pixel` applied twice to a 32-bit
pixel gives the pixel back, and `process_file` run twice on a buffer of
`width * height` 32-bit pixels gives the buffer back. -/
theorem process_file_involution (W H : Nat) (pix : List Nat) (hpix : pix.length = W * H)
    (h32 : ∀ p ∈ pix, p < 2 ^ 32) :
    (∀ p, p < 2 ^ 32 → process_pixel (process_pixel p) = p) ∧
    ∃ mid, process_file W H pix = .done mid ∧ process_file W H mid = .done pix := by
  refine ⟨process_pixel_twice, pix.map process_pixel, process_file_map W H pix hpix, ?_⟩
  rw [process_file_map W H _ (by simpa using hpix), List.map_map]
  congr 1
  calc pix.map (process_pixel ∘ process_pixel) = pix.map id :=
        List.map_congr_left (fun p hp => process_pixel_twice p (h32 p hp))
    _ = pix := List.map_id pix

/-- Witness of C8: a 2 x 1 buffer. -/
theorem process_file_involution_witness :
    (∀ p, p < 2 ^ 32 → process_pixel (process_pixel p) = p) ∧
    ∃ mid, process_file 2 1 [0x11223344, 0xFFEEDDCC] = .done mid ∧
      process_file 2 1 mid = .done [0x11223344, 0xFFEEDDCC] :=
  process_file_involution 2 1 [0x11223344, 0xFFEEDDCC] (by decide) (by decide)

/-- C9. The transform does nothing where red equals blue: a 32-bit pixel whose red
and blue lanes are equal is kept by `process_pixel`, so is every pixel
`(A, g, g, g)`, and so is every pixel the grayscale read loop produces. -/
theorem process_pixel_gray_fixed (W H : Nat) (rows : List (List Nat)) (buf : List Nat)
    (hrows : rows.length = H) (hlen : ∀ row ∈ rows, W ≤ row.length)
    (hbytes : ∀ row ∈ rows, IsBytes row) (hbuf : buf.length = W * H) :
    (∀ p, p < 2 ^ 32 → laneR p = laneB p → process_pixel p = p) ∧
    (∀ A g, A < 256 → g < 256 →
      process_pixel ((A <<< 24) ||| (g <<< 16) ||| (g <<< 8) ||| g)
        = (A <<< 24) ||| (g <<< 16) ||| (g <<< 8) ||| g) ∧
    ∃ pix, read_marshal PNG_COLOR_TYPE_GRAY W H rows buf = .done pix ∧
      (∀ p ∈ pix, process_pixel p = p) ∧ process_file W H pix = .done pix := by
  refine ⟨process_pixel_fixed, ?_, ?_⟩
  · intro A g hA hg
    rw [← packARGB_raw A g g g hA hg hg]
    have hl := lanes_packARGB A g g g hA hg hg hg
    exact process_pixel_fixed _ (packARGB_lt A g g g hA hg hg hg) (by rw [hl.2.1, hl.2.2.2])
  · obtain ⟨s, hs, hl, hv⟩ := readLoop_gray W H rows buf hrows hlen hbuf
    have hfix : ∀ p ∈ s.pixels, process_pixel p = p := by
      intro p hp
      obtain ⟨i, hi⟩ := List.mem_iff_getElem?.mp hp
      have hil : i < W * H := by
        by_contra hc
        rw [List.getElem?_eq_none (by omega)] at hi
        cases hi
      obtain ⟨hx, hy, he⟩ := flat_index W H i hil
      rw [← he, hv _ _ hx hy] at hi
      cases hi
      have hb := byteAt_lt rows (i / W) (i % W) hbytes
      have hl := lanes_packOpaque _ _ _ hb hb hb
      apply process_pixel_fixed
      · rw [packOpaque_eq_packARGB _ _ _ hb hb hb]
        exact packARGB_lt 255 _ _ _ (by omega) hb hb hb
      · rw [hl.2.1, hl.2.2.2]
    refine ⟨s.pixels, read_marshal_of_loop _ W H ⟨false, true⟩ rows buf s rfl hs, hfix, ?_⟩
    rw [process_file_map W H _ hl]
    congr 1
    calc s.pixels.map process_pixel = s.pixels.map id := List.map_congr_left hfix
      _ = s.pixels := List.map_id _

/-- Witness of C9: a 2 x 2 grayscale image. -/
theorem process_pixel_gray_fixed_witness :
    (∀ p, p < 2 ^ 32 → laneR p = laneB p → process_pixel p = p) ∧
    (∀ A g, A < 256 → g < 256 →
      process_pixel ((A <<< 24) ||| (g <<< 16) ||| (g <<< 8) ||| g)
        = (A <<< 24) ||| (g <<< 16) ||| (g <<< 8) ||| g) ∧
    ∃ pix, read_marshal PNG_COLOR_TYPE_GRAY 2 2 [[7, 200], [0, 255]] [1, 2, 3, 4]
        = .done pix ∧
      (∀ p ∈ pix, process_pixel p = p) ∧ process_file 2 2 pix = .done pix :=
  process_pixel_gray_fixed 2 2 [[7, 200], [0, 255]] [1, 2, 3, 4] (by decide) (by decide)
    (by decide) (by decide)

/-! ## Unsupported colour types: claim C10 -/

theorem bind_noAbort {α β : Type} (o : Outcome α) (f : α → Outcome β)
    (ho : NoAbort o) (hf : ∀ a, NoAbort (f a)) : NoAbort (o.bind f) := by
  cases o with
  | done a => exact hf a
  | aborted e => exact absurd rfl (ho e)
  | fault => intro e h; cases h

theorem forLoop_noAbort {σ : Type} (body : Nat → σ → Outcome σ)
    (hbody : ∀ i s, NoAbort (body i s)) (n : Nat) (s : σ) : NoAbort (forLoop body n s) := by
  induction n with
  | zero => intro e h; cases h
  | succ k ih => exact bind_noAbort _ _ ih (hbody k)

theorem storePixel_noAbort (v : Nat) (s : PixCursor) : NoAbort (storePixel v s) := by
  intro e h
  unfold storePixel at h
  split at h <;> cases h

theorem readRow_noAbort (f : Flags) (W : Nat) (rows : List (List Nat)) (y : Nat)
    (s : PixCursor) : NoAbort (readRow f W rows y s) := by
  unfold readRow
  split
  · intro e h; cases h
  · split
    · apply forLoop_noAbort
      intro x t e h
      unfold readGrayPixel at h
      split at h
      · exact storePixel_noAbort _ _ e h
      · cases h
    · split
      · apply forLoop_noAbort
        intro x t e h
        unfold readRGBAPixel at h
        split at h
        · exact storePixel_noAbort _ _ e h
        · cases h
      · apply forLoop_noAbort
        intro x t e h
        unfold readRGBPixel at h
        split at h
        · exact storePixel_noAbort _ _ e h
        · cases h

theorem storeByte_noAbort (y i v : Nat) (rows : List (List Nat)) :
    NoAbort (storeByte y i v rows) := by
  intro e h
  unfold storeByte at h
  split at h
  · cases h
  · split at h <;> cases h

theorem done_noAbort {α : Type} (a : α) : NoAbort (Outcome.done a) := by
  intro e h; cases h

theorem writeRow_noAbort (f : Flags) (W : Nat) (pixels : List Nat) (y : Nat)
    (s : RowCursor) : NoAbort (writeRow f W pixels y s) := by
  unfold writeRow
  split
  · intro e h; cases h
  · split
    · apply forLoop_noAbort
      intro x t
      unfold writeGrayPixel
      split
      · intro e h; cases h
      · exact bind_noAbort _ _ (storeByte_noAbort _ _ _ _) (fun _ => done_noAbort _)
    · split
      · apply forLoop_noAbort
        intro x t
        unfold writeRGBAPixel
        split
        · intro e h; cases h
        · exact bind_noAbort _ _ (storeByte_noAbort _ _ _ _) (fun _ =>
            bind_noAbort _ _ (storeByte_noAbort _ _ _ _) (fun _ =>
            bind_noAbort _ _ (storeByte_noAbort _ _ _ _) (fun _ =>
            bind_noAbort _ _ (storeByte_noAbort _ _ _ _) (fun _ => done_noAbort _))))
      · apply forLoop_noAbort
        intro x t
        unfold writeRGBPixel
        split
        · intro e h; cases h
        · exact bind_noAbort _ _ (storeByte_noAbort _ _ _ _) (fun _ =>
            bind_noAbort _ _ (storeByte_noAbort _ _ _ _) (fun _ =>
            bind_noAbort _ _ (storeByte_noAbort _ _ _ _) (fun _ => done_noAbort _)))

theorem read_classify_done (ct : Nat) (hct : Supported ct) :
    ∃ f, read_classify ct = .done f := by
  rcases hct with h | h | h <;> subst h <;> exact ⟨_, rfl⟩

theorem write_classify_done (ct : Nat) (hct : Supported ct) :
    ∃ f, write_classify ct = .done f := by
  rcases hct with h | h | h <;> subst h <;> exact ⟨_, rfl⟩

theorem read_classify_abort (ct : Nat) (hct : ¬ Supported ct) :
    read_classify ct = .aborted .readUnsupportedFormat := by
  unfold Supported at hct
  unfold read_classify
  rw [if_neg (fun h => hct (Or.inr (Or.inr h))), if_neg (fun h => hct (Or.inr (Or.inl h))),
    if_neg (fun h => hct (Or.inl h))]

theorem write_classify_abort (ct : Nat) (hct : ¬ Supported ct) :
    write_classify ct = .aborted .writeUnsupportedFormat := by
  unfold Supported at hct
  unfold write_classify
  rw [if_neg (fun h => hct (Or.inr (Or.inr h))), if_neg (fun h => hct (Or.inr (Or.inl h))),
    if_neg (fun h => hct (Or.inl h))]

/-- C10. An unsupported colour type is rejected: the marshaling of `read_png_file`
and that of `write_png_file` call `abort_` exactly when the colour type is none of
`PNG_COLOR_TYPE_GRAY`, `PNG_COLOR_TYPE_RGB`, `PNG_COLOR_TYPE_RGBA`; they then abort
with the "unsupported input format type" message and leave no result, as for the
palette and gray-with-alpha colour types. -/
theorem unsupported_color_type_aborts (ct W H : Nat) (rows : List (List Nat))
    (buf pix : List Nat) (rows0 : List (List Nat)) :
    ((∃ e, read_marshal ct W H rows buf = .aborted e) ↔ ¬ Supported ct) ∧
    ((∃ e, write_marshal ct W H pix rows0 = .aborted e) ↔ ¬ Supported ct) ∧
    (¬ Supported ct →
      read_marshal ct W H rows buf = .aborted .readUnsupportedFormat ∧
      write_marshal ct W H pix rows0 = .aborted .writeUnsupportedFormat ∧
      (∀ out, read_marshal ct W H rows buf ≠ .done out) ∧
      ∀ out, write_marshal ct W H pix rows0 ≠ .done out) ∧
    Abort.message .readUnsupportedFormat
      = "[read_png_file] unsupported input format type" ∧
    Abort.message .writeUnsupportedFormat
      = "[write_png_file] unsupported input format type" ∧
    ¬ Supported PNG_COLOR_TYPE_PALETTE ∧ ¬ Supported PNG_COLOR_TYPE_GRAY_ALPHA := by
  have hr : ¬ Supported ct →
      read_marshal ct W H rows buf = .aborted .readUnsupportedFormat := by
    intro h
    simp [read_marshal, read_classify_abort ct h, Outcome.bind]
  have hw : ¬ Supported ct →
      write_marshal ct W H pix rows0 = .aborted .writeUnsupportedFormat := by
    intro h
    simp [write_marshal, write_classify_abort ct h, Outcome.bind]
  refine ⟨⟨?_, fun h => ⟨_, hr h⟩⟩, ⟨?_, fun h => ⟨_, hw h⟩⟩, ?_, rfl, rfl, by decide,
    by decide⟩
  · rintro ⟨e, he⟩ hct
    obtain ⟨f, hf⟩ := read_classify_done ct hct
    have hno : NoAbort (read_marshal ct W H rows buf) := by
      unfold read_marshal
      rw [hf]
      show NoAbort ((readLoop f W H rows buf).bind fun s => .done s.pixels)
      exact bind_noAbort _ _ (forLoop_noAbort _ (readRow_noAbort f W rows) H _)
        (fun _ => done_noAbort _)
    exact hno e he
  · rintro ⟨e, he⟩ hct
    obtain ⟨f, hf⟩ := write_classify_done ct hct
    have hno : NoAbort (write_marshal ct W H pix rows0) := by
      unfold write_marshal
      rw [hf]
      show NoAbort ((writeLoop f W H pix rows0).bind fun s => .done s.rows)
      exact bind_noAbort _ _ (forLoop_noAbort _ (writeRow_noAbort f W pix) H _)
        (fun _ => done_noAbort _)
    exact hno e he
  · intro h
    refine ⟨hr h, hw h, ?_, ?_⟩
    · intro out ho
      rw [hr h] at ho
      cases ho
    · intro out ho
      rw [hw h] at ho
      cases ho

/-! ## Row buffers: claims C16 and C17 -/

theorem andThen_done (g : Globals) (f : Globals → Run) :
    Run.andThen ⟨g, .done ()⟩ f = f g := rfl

theorem andThen_result_ne (r : Run) (f : Globals → Run) (e : Abort)
    (hr : r.result ≠ .aborted e) (hf : ∀ g, (f g).result ≠ .aborted e) :
    (r.andThen f).result ≠ .aborted e := by
  unfold Run.andThen
  split
  · exact hf _
  · exact hr

theorem forRun_result_ne (body : Nat → Globals → Run) (e : Abort)
    (hbody : ∀ y g, (body y g).result ≠ .aborted e) (n : Nat) (g : Globals) :
    (forRun body n g).result ≠ .aborted e := by
  induction n with
  | zero => intro h; cases h
  | succ k ih => exact andThen_result_ne _ _ e ih (hbody k)

theorem forRun_freeRow (g : Globals) (rows : List (List Nat)) (n : Nat)
    (hrows : g.row_pointers = some rows) (hn : n ≤ rows.length) :
    forRun freeRow n g = ⟨g, .done ()⟩ := by
  induction n with
  | zero => rfl
  | succ k ih =>
    have hk : k < rows.length := by omega
    simp [forRun, ih (by omega), andThen_done, freeRow, hrows, hk]

theorem forRun_allocateRow (m : Malloc) (rowbytes : Nat) (g : Globals) (n : Nat)
    (hok : ∀ y, y < n → m.rowOk y = true) :
    forRun (allocateRow m rowbytes) n { g with row_pointers := some [] }
      = ⟨{ g with row_pointers := some ((List.range n).map (freshRow m rowbytes)) },
          .done ()⟩ := by
  induction n with
  | zero => rfl
  | succ k ih =>
    simp [forRun, ih (fun y hy => hok y (by omega)), andThen_done, allocateRow,
      hok k (by omega), List.range_succ]

theorem freshRow_length (m : Malloc) (rowbytes y : Nat) :
    (freshRow m rowbytes y).length = rowbytes := by
  simp [freshRow]

theorem allocateRow_result_ne (m : Malloc) (rowbytes y : Nat) (g : Globals) (e : Abort)
    (he : e ≠ .allocRow) : (allocateRow m rowbytes y g).result ≠ .aborted e := by
  unfold allocateRow
  split
  · intro h; cases h
  · split
    · intro h; cases h
    · intro h
      cases h
      exact he rfl

theorem free_row_pointers_none (g : Globals) (h : g.row_pointers = none) :
    free_row_pointers g = ⟨g, .done ()⟩ := by
  simp [free_row_pointers, h]

theorem free_row_pointers_some (g : Globals) (rows : List (List Nat))
    (h : g.row_pointers = some rows) (hn : g.height ≤ rows.length) :
    free_row_pointers g = ⟨{ g with row_pointers := none }, .done ()⟩ := by
  simp [free_row_pointers, h, forRun_freeRow g rows g.height h hn, andThen_done]

/-- C16. Releasing the row buffers is idempotent: `free_row_pointers` called with
`row_pointers == NULL` returns at once and changes nothing; called with the row
buffers held (a table with an entry for each of the `height` rows) it ends with
`row_pointers == NULL`; so a second call right after the first changes nothing. -/
theorem free_row_pointers_idempotent (g : Globals)
    (hwf : ∀ rows, g.row_pointers = some rows → g.height ≤ rows.length) :
    (g.row_pointers = none → free_row_pointers g = ⟨g, .done ()⟩) ∧
    (g.row_pointers ≠ none →
      free_row_pointers g = ⟨{ g with row_pointers := none }, .done ()⟩) ∧
    (free_row_pointers g).result = .done () ∧
    (free_row_pointers g).globals.row_pointers = none ∧
    (free_row_pointers g).andThen free_row_pointers = free_row_pointers g := by
  cases hrp : g.row_pointers with
  | none =>
    have h := free_row_pointers_none g hrp
    refine ⟨fun _ => h, fun hne => absurd rfl hne, (by rw [h]), (by rw [h]; exact hrp), ?_⟩
    rw [h, andThen_done, h]
  | some rows =>
    have h := free_row_pointers_some g rows hrp (hwf rows hrp)
    refine ⟨fun hc => (by cases hc), fun _ => h, (by rw [h]), (by rw [h]), ?_⟩
    rw [h, andThen_done]
    exact free_row_pointers_none _ rfl

/-- Witness of C16: two row buffers held for an image of height 2. -/
theorem free_row_pointers_idempotent_witness :
    ((⟨1, 2, 0, 8, some [[7], [9]], none⟩ : Globals).row_pointers = none →
      free_row_pointers ⟨1, 2, 0, 8, some [[7], [9]], none⟩
        = ⟨⟨1, 2, 0, 8, some [[7], [9]], none⟩, .done ()⟩) ∧
    ((⟨1, 2, 0, 8, some [[7], [9]], none⟩ : Globals).row_pointers ≠ none →
      free_row_pointers ⟨1, 2, 0, 8, some [[7], [9]], none⟩
        = ⟨{ (⟨1, 2, 0, 8, some [[7], [9]], none⟩ : Globals) with row_pointers := none },
            .done ()⟩) ∧
    (free_row_pointers ⟨1, 2, 0, 8, some [[7], [9]], none⟩).result = .done () ∧
    (free_row_pointers ⟨1, 2, 0, 8, some [[7], [9]], none⟩).globals.row_pointers = none ∧
    (free_row_pointers ⟨1, 2, 0, 8, some [[7], [9]], none⟩).andThen free_row_pointers
      = free_row_pointers ⟨1, 2, 0, 8, some [[7], [9]], none⟩ :=
  free_row_pointers_idempotent ⟨1, 2, 0, 8, some [[7], [9]], none⟩ (by
    intro rows h
    cases h
    decide)

/-- C17. Allocating twice is fatal: `allocate_row_pointers` ends in the
"row_pointers already allocated" call of `abort_` exactly when `row_pointers` is not
`NULL` on entry; when it is `NULL` and every `malloc` succeeds, it ends normally
with exactly `height` row buffers of `png_get_rowbytes` bytes each, and leaves the
other globals as they were. -/
theorem allocate_row_pointers_spec (m : Malloc) (rowbytes : Nat) (g : Globals) :
    ((allocate_row_pointers m rowbytes g).result = .aborted .allocAlready ↔
      g.row_pointers ≠ none) ∧
    (g.row_pointers ≠ none →
      allocate_row_pointers m rowbytes g = ⟨g, .aborted .allocAlready⟩) ∧
    (g.row_pointers = none → m.tableOk = true → (∀ y, y < g.height → m.rowOk y = true) →
      ∃ rows, allocate_row_pointers m rowbytes g
          = ⟨{ g with row_pointers := some rows }, .done ()⟩ ∧
        rows.length = g.height ∧ ∀ row ∈ rows, row.length = rowbytes) ∧
    Abort.message .allocAlready
      = "[allocate_row_pointers] row_pointers already allocated" := by
  have hheld : g.row_pointers ≠ none →
      allocate_row_pointers m rowbytes g = ⟨g, .aborted .allocAlready⟩ := by
    intro h
    simp [allocate_row_pointers, h]
  refine ⟨⟨?_, fun h => by rw [hheld h]⟩, hheld, ?_, rfl⟩
  · intro h hnone
    by_cases ht : m.tableOk = true
    · simp only [allocate_row_pointers, hnone, ne_eq, not_true_eq_false, if_false, ht,
        if_true] at h
      exact forRun_result_ne _ .allocAlready
        (fun y g' => allocateRow_result_ne m rowbytes y g' _ (by decide)) _ _ h
    · simp [allocate_row_pointers, hnone, ht] at h
  · intro hnone ht hrows
    refine ⟨(List.range g.height).map (freshRow m rowbytes), ?_, by simp, ?_⟩
    · simp only [allocate_row_pointers, hnone, ne_eq, not_true_eq_false, if_false, ht,
        if_true]
      exact forRun_allocateRow m rowbytes g g.height hrows
    · intro row hrow
      obtain ⟨y, _, rfl⟩ := List.mem_map.mp hrow
      exact freshRow_length m rowbytes y

/-! ## The checks of `read_png_file`: claims C11 and C12 -/

theorem allocate_result_ne (m : Malloc) (rowbytes : Nat) (g : Globals) (e : Abort)
    (h1 : e ≠ .allocAlready) (h2 : e ≠ .allocTable) (h3 : e ≠ .allocRow) :
    (allocate_row_pointers m rowbytes g).result ≠ .aborted e := by
  unfold allocate_row_pointers
  split
  · intro h; cases h; exact h1 rfl
  · split
    · exact forRun_result_ne _ e (fun y g' => allocateRow_result_ne m rowbytes y g' e h3) _ _
    · intro h; cases h; exact h2 rfl

theorem freeRow_result_ne (y : Nat) (g : Globals) (e : Abort) :
    (freeRow y g).result ≠ .aborted e := by
  unfold freeRow
  split
  · intro h; cases h
  · split <;> (intro h; cases h)

theorem free_result_ne (g : Globals) (e : Abort) :
    (free_row_pointers g).result ≠ .aborted e := by
  unfold free_row_pointers
  split
  · intro h; cases h
  · exact andThen_result_ne _ _ e (forRun_result_ne _ e (fun y g' => freeRow_result_ne y g' e) _ _)
      (fun _ h => by cases h)

theorem readLoop_noAbort (f : Flags) (W H : Nat) (rows : List (List Nat)) (pix : List Nat) :
    NoAbort (readLoop f W H rows pix) :=
  forLoop_noAbort _ (readRow_noAbort f W rows) H _

theorem readPixels_abort (g : Globals) (e : Abort)
    (h : (readPixels g).result = .aborted e) :
    e = .readUnsupportedFormat ∧ ¬ Supported g.color_type ∧ readPixels g = ⟨g, .aborted e⟩ := by
  by_cases hct : Supported g.color_type
  · exfalso
    obtain ⟨f, hf⟩ := read_classify_done g.color_type hct
    unfold readPixels at h
    rw [hf] at h
    simp only at h
    split at h
    · split at h
      · cases h
      · rename_i e' he'
        exact readLoop_noAbort _ _ _ _ _ e' he'
      · cases h
    · cases h
  · have hc := read_classify_abort g.color_type hct
    unfold readPixels at h ⊢
    rw [hc] at h ⊢
    simp only at h ⊢
    cases h
    exact ⟨rfl, hct, rfl⟩

/-- The part of `read_png_file` after the bit-depth check, lines 120-213. -/
theorem read_png_file_eq (file : PngSource) (m : Malloc) (g : Globals)
    (hinit : file.initError = none) (h8 : file.bit_depth = 8) :
    read_png_file file m g =
      (allocate_row_pointers m file.rowbytes
        { g with width := file.width, height := file.height,
                 color_type := file.color_type, bit_depth := file.bit_depth }).andThen
      fun g2 =>
        if file.readImageError then ⟨g2, .aborted .readImage⟩
        else if m.pixelsOk then
          (readPixels { g2 with
            row_pointers := g2.row_pointers.map (png_read_image file),
            pixels := some (freshPixels m (g2.width * g2.height)) }).andThen
            free_row_pointers
        else ⟨{ g2 with row_pointers := g2.row_pointers.map (png_read_image file),
                        pixels := none }, .aborted .readPixelsAlloc⟩ := by
  simp [read_png_file, hinit, h8]

/-- C11. A bit depth other than 8 is fatal: once the metadata is read, a bit depth
that is not 8 makes `read_png_file` call `abort_` with "only 8 bit pixel depth PNG is
supported" while `row_pointers` and `pixels` are still what they were on entry, so
before any row buffer is allocated and before any pixel is decoded; with bit depth
8 the run never ends in that call. -/
theorem bit_depth_not_8_aborts (file : PngSource) (m : Malloc) (g : Globals) :
    ((read_png_file file m g).result = .aborted .readBitDepth ↔
      file.initError = none ∧ file.bit_depth ≠ 8) ∧
    (file.initError = none → file.bit_depth ≠ 8 →
      read_png_file file m g
        = ⟨{ g with width := file.width, height := file.height,
                    color_type := file.color_type, bit_depth := file.bit_depth },
            .aborted .readBitDepth⟩ ∧
      (read_png_file file m g).globals.row_pointers = g.row_pointers ∧
      (read_png_file file m g).globals.pixels = g.pixels) ∧
    (file.bit_depth = 8 → (read_png_file file m g).result ≠ .aborted .readBitDepth) ∧
    Abort.message .readBitDepth
      = "[read_png_file] only 8 bit pixel depth PNG is supported" := by
  have hbad : file.initError = none → file.bit_depth ≠ 8 →
      read_png_file file m g
        = ⟨{ g with width := file.width, height := file.height,
                    color_type := file.color_type, bit_depth := file.bit_depth },
            .aborted .readBitDepth⟩ := by
    intro hinit h8
    simp [read_png_file, hinit, h8]
  have hgood : file.bit_depth = 8 →
      (read_png_file file m g).result ≠ .aborted .readBitDepth := by
    intro h8
    cases hinit : file.initError with
    | some e => simp [read_png_file, hinit]
    | none =>
      rw [read_png_file_eq file m g hinit h8]
      apply andThen_result_ne _ _ _
        (allocate_result_ne _ _ _ _ (by decide) (by decide) (by decide))
      intro g2
      by_cases hr : file.readImageError = true
      · simp [hr]
      · by_cases hp : m.pixelsOk = true
        · simp only [hr, hp, if_true, if_false, Bool.false_eq_true]
          apply andThen_result_ne _ _ _ _ (fun g' => free_result_ne g' _)
          intro h
          have := (readPixels_abort _ _ h).1
          cases this
        · simp [hr, hp]
  refine ⟨⟨?_, fun h => by rw [hbad h.1 h.2]⟩, ?_, hgood, rfl⟩
  · intro h
    cases hinit : file.initError with
    | some e => simp [read_png_file, hinit] at h
    | none =>
      refine ⟨rfl, fun h8 => hgood h8 h⟩
  · intro hinit h8
    refine ⟨hbad hinit h8, ?_, ?_⟩ <;> rw [hbad hinit h8]

/-- Witness of C11: a 16-bit grayscale file, read at the start of `main`. -/
theorem bit_depth_not_8_aborts_witness :
    read_png_file deepSource plainMalloc startGlobals
        = ⟨{ startGlobals with width := deepSource.width,
                               height := deepSource.height,
                               color_type := deepSource.color_type,
                               bit_depth := deepSource.bit_depth },
            .aborted .readBitDepth⟩ ∧
      (read_png_file deepSource plainMalloc startGlobals).globals.row_pointers
        = startGlobals.row_pointers ∧
      (read_png_file deepSource plainMalloc startGlobals).globals.pixels
        = startGlobals.pixels :=
  (bit_depth_not_8_aborts deepSource plainMalloc startGlobals).2.1 rfl (by decide)

theorem swapIdx_lt (ct k : Nat) (hct : Supported ct) (hk : k < bytesPerPixel ct) :
    swapIdx ct k < bytesPerPixel ct := by
  rcases hct with h | h | h <;> subst h
  · simpa [swapIdx] using hk
  · rw [bpp_rgb] at hk ⊢
    simp only [swapIdx, PNG_COLOR_TYPE_RGB, PNG_COLOR_TYPE_GRAY]
    split_ifs <;> omega
  · rw [bpp_rgba] at hk ⊢
    simp only [swapIdx, PNG_COLOR_TYPE_RGBA, PNG_COLOR_TYPE_GRAY]
    split_ifs <;> omega

theorem swapIdx_twice (ct k : Nat) : swapIdx ct (swapIdx ct k) = k := by
  by_cases h : ct = PNG_COLOR_TYPE_GRAY
  · simp [swapIdx, h]
  · simp only [swapIdx, h, if_false]
    split_ifs <;> first | omega | contradiction

theorem enc_process_dec (ct : Nat) (hct : Supported ct) (rows : List (List Nat))
    (y x k : Nat) (hbytes : ∀ row ∈ rows, IsBytes row) (hk : k < bytesPerPixel ct) :
    encOf ct (process_pixel (decOf ct rows y x)) k
      = byteAt rows y (bytesPerPixel ct * x + swapIdx ct k) := by
  have hb := fun i => byteAt_lt rows y i hbytes
  rcases hct with h | h | h <;> subst h
  · have hk0 : k = 0 := by rw [bpp_gray] at hk; omega
    subst hk0
    have hd : decOf PNG_COLOR_TYPE_GRAY rows y x
        = packOpaque (byteAt rows y x) (byteAt rows y x) (byteAt rows y x) := rfl
    have hl := lanes_packOpaque _ _ _ (hb x) (hb x) (hb x)
    rw [encOf_gray, encGray_val, (process_pixel_lanes _).2.2.2, hd, hl.2.1, bpp_gray]
    simp [swapIdx]
  · have hd : decOf PNG_COLOR_TYPE_RGB rows y x
        = packOpaque (byteAt rows y (3 * x)) (byteAt rows y (3 * x + 1))
            (byteAt rows y (3 * x + 2)) := rfl
    have hl := lanes_packOpaque _ _ _ (hb (3 * x)) (hb (3 * x + 1)) (hb (3 * x + 2))
    have hp := process_pixel_lanes (decOf PNG_COLOR_TYPE_RGB rows y x)
    have he := encRGB_val (process_pixel (decOf PNG_COLOR_TYPE_RGB rows y x))
    rw [hd] at hp he
    rw [hd, encOf_rgb, bpp_rgb]
    rw [bpp_rgb] at hk
    have hk3 : k = 0 ∨ k = 1 ∨ k = 2 := by omega
    rcases hk3 with e | e | e <;> subst e
    · rw [he.1, hp.2.1, hl.2.2.2]; rfl
    · rw [he.2.1, hp.2.2.1, hl.2.2.1]; rfl
    · rw [he.2.2, hp.2.2.2, hl.2.1]; rfl
  · have hd : decOf PNG_COLOR_TYPE_RGBA rows y x
        = packARGB (byteAt rows y (4 * x + 3)) (byteAt rows y (4 * x))
            (byteAt rows y (4 * x + 1)) (byteAt rows y (4 * x + 2)) := rfl
    have hl := lanes_packARGB _ _ _ _ (hb (4 * x + 3)) (hb (4 * x)) (hb (4 * x + 1))
      (hb (4 * x + 2))
    have hp := process_pixel_lanes (decOf PNG_COLOR_TYPE_RGBA rows y x)
    have he := encRGBA_val (process_pixel (decOf PNG_COLOR_TYPE_RGBA rows y x))
    rw [hd] at hp he
    rw [hd, encOf_rgba, bpp_rgba]
    rw [bpp_rgba] at hk
    have hk4 : k = 0 ∨ k = 1 ∨ k = 2 ∨ k = 3 := by omega
    rcases hk4 with e | e | e | e <;> subst e
    · rw [he.1, hp.2.1, hl.2.2.2]; rfl
    · rw [he.2.1, hp.2.2.1, hl.2.2.1]; rfl
    · rw [he.2.2.1, hp.2.2.2, hl.2.1]; rfl
    · rw [he.2.2.2, hp.1, hl.1]; rfl

theorem pipeline_spec (ct W H : Nat) (hct : Supported ct) (rows : List (List Nat))
    (buf : List Nat) (rows0 : List (List Nat)) (hrows : rows.length = H)
    (hlen : ∀ row ∈ rows, bytesPerPixel ct * W ≤ row.length)
    (hbytes : ∀ row ∈ rows, IsBytes row) (hbuf : buf.length = W * H)
    (hrows0 : rows0.length = H)
    (hlen0 : ∀ row ∈ rows0, bytesPerPixel ct * W ≤ row.length) :
    ∃ out, pipeline ct W H rows buf rows0 = .done out ∧ out.length = H ∧
      ∀ y, y < H → ∃ row0 orow, rows0[y]? = some row0 ∧ out[y]? = some orow ∧
        orow.length = row0.length ∧
        (∀ x k, x < W → k < bytesPerPixel ct →
          orow[bytesPerPixel ct * x + k]?
            = some (byteAt rows y (bytesPerPixel ct * x + swapIdx ct k))) ∧
        ∀ i, bytesPerPixel ct * W ≤ i → orow[i]? = row0[i]? := by
  obtain ⟨pix, hread, hpl, hpv⟩ := read_marshal_spec ct W H hct rows buf hrows hlen hbuf
  have hproc := process_file_map W H pix hpl
  obtain ⟨out, hwrite, hol, hod, _⟩ := write_marshal_spec ct W H hct
    (pix.map process_pixel) rows0 (by omega) hlen0 (by simp [hpl])
  refine ⟨out, by simp [pipeline, hread, hproc, hwrite, Outcome.bind], by omega, ?_⟩
  intro y hy
  have hy0 : rows0[y]? = some rows0[y] := List.getElem?_eq_getElem (by omega)
  obtain ⟨orow, horow, hl, hv, hrest⟩ := hod y _ hy hy0
  refine ⟨rows0[y], orow, hy0, horow, hl, ?_, hrest⟩
  intro x k hx hk
  rw [hv x k (process_pixel (decOf ct rows y x)) hx hk
    (by rw [List.getElem?_map, hpv x y hx hy]; rfl)]
  rw [enc_process_dec ct hct rows y x k hbytes hk]

theorem row_ext_cells (bpp W : Nat) (row row' : List Nat) (hbpp : 0 < bpp)
    (hl : row.length = bpp * W) (hl' : row'.length = bpp * W)
    (h : ∀ x k, x < W → k < bpp → row[bpp * x + k]? = row'[bpp * x + k]?) :
    row = row' := by
  apply List.ext_getElem?
  intro i
  by_cases hi : i < bpp * W
  · have e : bpp * (i / bpp) + i % bpp = i := Nat.div_add_mod i bpp
    have := h (i / bpp) (i % bpp) (Nat.div_lt_of_lt_mul hi) (Nat.mod_lt i hbpp)
    rw [e] at this
    exact this
  · rw [List.getElem?_eq_none (by omega), List.getElem?_eq_none (by omega)]

/-- C13. End to end, truecolour: for `height` rows of at least `3 * width` bytes the
read loop, `process_file` and the write loop in a row end normally, and in every
pixel of the output the first and third bytes are the third and first bytes of the
input and the middle byte is the same. The 2 x 1 image with the row
`10, 20, 30, 40, 50, 60` decodes to `(255,10,20,30), (255,40,50,60)`, is transformed
to `(255,30,20,10), (255,60,50,40)` and encodes to `30, 20, 10, 60, 50, 40`. -/
theorem pipeline_rgb_swaps (W H : Nat) (rows : List (List Nat)) (buf : List Nat)
    (rows0 : List (List Nat)) (hrows : rows.length = H)
    (hlen : ∀ row ∈ rows, 3 * W ≤ row.length) (hbytes : ∀ row ∈ rows, IsBytes row)
    (hbuf : buf.length = W * H) (hrows0 : rows0.length = H)
    (hlen0 : ∀ row ∈ rows0, 3 * W ≤ row.length) :
    (∃ out, pipeline PNG_COLOR_TYPE_RGB W H rows buf rows0 = .done out ∧ out.length = H ∧
      ∀ x y row, x < W → y < H → rows[y]? = some row →
        ∃ orow, out[y]? = some orow ∧ orow[3 * x]? = row[3 * x + 2]? ∧
          orow[3 * x + 1]? = row[3 * x + 1]? ∧ orow[3 * x + 2]? = row[3 * x]?) ∧
    read_marshal PNG_COLOR_TYPE_RGB 2 1 [[10, 20, 30, 40, 50, 60]] [0, 0]
      = .done [(255 <<< 24) ||| (10 <<< 16) ||| (20 <<< 8) ||| 30,
               (255 <<< 24) ||| (40 <<< 16) ||| (50 <<< 8) ||| 60] ∧
    process_file 2 1 [(255 <<< 24) ||| (10 <<< 16) ||| (20 <<< 8) ||| 30,
                      (255 <<< 24) ||| (40 <<< 16) ||| (50 <<< 8) ||| 60]
      = .done [(255 <<< 24) ||| (30 <<< 16) ||| (20 <<< 8) ||| 10,
               (255 <<< 24) ||| (60 <<< 16) ||| (50 <<< 8) ||| 40] ∧
    write_marshal PNG_COLOR_TYPE_RGB 2 1
        [(255 <<< 24) ||| (30 <<< 16) ||| (20 <<< 8) ||| 10,
         (255 <<< 24) ||| (60 <<< 16) ||| (50 <<< 8) ||| 40] [[0, 0, 0, 0, 0, 0]]
      = .done [[30, 20, 10, 60, 50, 40]] := by
  refine ⟨?_, by decide, by rfl, by rfl⟩
  obtain ⟨out, hrun, hl, hv⟩ := pipeline_spec PNG_COLOR_TYPE_RGB W H (Or.inr (Or.inl rfl))
    rows buf rows0 hrows hlen hbytes hbuf hrows0 hlen0
  refine ⟨out, hrun, hl, ?_⟩
  intro x y row hx hy hrow
  obtain ⟨_, orow, _, horow, _, hcell, _⟩ := hv y hy
  rw [bpp_rgb] at hcell
  have hrl := hlen row (List.getElem?_mem hrow)
  refine ⟨orow, horow, ?_, ?_, ?_⟩
  · rw [byteAt_eq rows y (3 * x + 2) row hrow (by omega)]
    exact hcell x 0 hx (by omega)
  · rw [byteAt_eq rows y (3 * x + 1) row hrow (by omega)]
    exact hcell x 1 hx (by omega)
  · rw [byteAt_eq rows y (3 * x) row hrow (by omega)]
    exact hcell x 2 hx (by omega)

/-- Witness of C13: the 2 x 1 image with the row `10, 20, 30, 40, 50, 60`. -/
theorem pipeline_rgb_swaps_witness :
    ∃ out, pipeline PNG_COLOR_TYPE_RGB 2 1 [[10, 20, 30, 40, 50, 60]] [0, 0]
        [[0, 0, 0, 0, 0, 0]] = .done out ∧ out.length = 1 ∧
      ∀ x y row, x < 2 → y < 1 → [[10, 20, 30, 40, 50, 60]][y]? = some row →
        ∃ orow, out[y]? = some orow ∧ orow[3 * x]? = row[3 * x + 2]? ∧
          orow[3 * x + 1]? = row[3 * x + 1]? ∧ orow[3 * x + 2]? = row[3 * x]? :=
  (pipeline_rgb_swaps 2 1 [[10, 20, 30, 40, 50, 60]] [0, 0] [[0, 0, 0, 0, 0, 0]]
    (by decide) (by decide) (by decide) (by decide) (by decide) (by decide)).1

/-- C15. End to end, truecolour with alpha: for `height` rows of at least
`4 * width` bytes the read loop, `process_file` and the write loop in a row end
normally, and in every pixel of the output the alpha byte at offset `4x + 3` and
the green byte at `4x + 1` are those of the input, while the bytes at `4x` and
`4x + 2` have changed places. -/
theorem pipeline_rgba_keeps_alpha (W H : Nat) (rows : List (List Nat)) (buf : List Nat)
    (rows0 : List (List Nat)) (hrows : rows.length = H)
    (hlen : ∀ row ∈ rows, 4 * W ≤ row.length) (hbytes : ∀ row ∈ rows, IsBytes row)
    (hbuf : buf.length = W * H) (hrows0 : rows0.length = H)
    (hlen0 : ∀ row ∈ rows0, 4 * W ≤ row.length) :
    ∃ out, pipeline PNG_COLOR_TYPE_RGBA W H rows buf rows0 = .done out ∧ out.length = H ∧
      ∀ x y row, x < W → y < H → rows[y]? = some row →
        ∃ orow, out[y]? = some orow ∧ orow[4 * x + 3]? = row[4 * x + 3]? ∧
          orow[4 * x + 1]? = row[4 * x + 1]? ∧ orow[4 * x]? = row[4 * x + 2]? ∧
          orow[4 * x + 2]? = row[4 * x]? := by
  obtain ⟨out, hrun, hl, hv⟩ := pipeline_spec PNG_COLOR_TYPE_RGBA W H (Or.inr (Or.inr rfl))
    rows buf rows0 hrows hlen hbytes hbuf hrows0 hlen0
  refine ⟨out, hrun, hl, ?_⟩
  intro x y row hx hy hrow
  obtain ⟨_, orow, _, horow, _, hcell, _⟩ := hv y hy
  rw [bpp_rgba] at hcell
  have hrl := hlen row (List.getElem?_mem hrow)
  refine ⟨orow, horow, ?_, ?_, ?_, ?_⟩
  · rw [byteAt_eq rows y (4 * x + 3) row hrow (by omega)]
    exact hcell x 3 hx (by omega)
  · rw [byteAt_eq rows y (4 * x + 1) row hrow (by omega)]
    exact hcell x 1 hx (by omega)
  · rw [byteAt_eq rows y (4 * x + 2) row hrow (by omega)]
    exact hcell x 0 hx (by omega)
  · rw [byteAt_eq rows y (4 * x) row hrow (by omega)]
    exact hcell x 2 hx (by omega)

/-- Witness of C15: a 2 x 1 image with the alpha bytes `4` and `8`. -/
theorem pipeline_rgba_keeps_alpha_witness :
    ∃ out, pipeline PNG_COLOR_TYPE_RGBA 2 1 [[1, 2, 3, 4, 5, 6, 7, 8]] [0, 0]
        [[0, 0, 0, 0, 0, 0, 0, 0]] = .done out ∧ out.length = 1 ∧
      ∀ x y row, x < 2 → y < 1 → [[1, 2, 3, 4, 5, 6, 7, 8]][y]? = some row →
        ∃ orow, out[y]? = some orow ∧ orow[4 * x + 3]? = row[4 * x + 3]? ∧
          orow[4 * x + 1]? = row[4 * x + 1]? ∧ orow[4 * x]? = row[4 * x + 2]? ∧
          orow[4 * x + 2]? = row[4 * x]? :=
  pipeline_rgba_keeps_alpha 2 1 [[1, 2, 3, 4, 5, 6, 7, 8]] [0, 0]
    [[0, 0, 0, 0, 0, 0, 0, 0]] (by decide) (by decide) (by decide) (by decide)
    (by decide) (by decide)

theorem rows_eq_of_byteAt (bpp W H : Nat) (a b : List (List Nat)) (hbpp : 0 < bpp)
    (ha : a.length = H) (hb : b.length = H)
    (hla : ∀ row ∈ a, row.length = bpp * W) (hlb : ∀ row ∈ b, row.length = bpp * W)
    (h : ∀ y x k, y < H → x < W → k < bpp →
      byteAt a y (bpp * x + k) = byteAt b y (bpp * x + k)) : a = b := by
  apply rows_ext H
  · intro y hy
    have hya : a[y]? = some a[y] := List.getElem?_eq_getElem (by omega)
    have hyb : b[y]? = some b[y] := List.getElem?_eq_getElem (by omega)
    refine ⟨a[y], hya, ?_⟩
    rw [hyb]
    congr 1
    have la := hla _ (List.getElem?_mem hya)
    have lb := hlb _ (List.getElem?_mem hyb)
    apply row_ext_cells bpp W _ _ hbpp lb la
    intro x k hx hk
    have hlt := offset_lt bpp x W k hx hk
    rw [byteAt_eq b y _ _ hyb (by omega), byteAt_eq a y _ _ hya (by omega),
      h y x k hy hx hk]
  · intro y hy
    rw [List.getElem?_eq_none (by omega), List.getElem?_eq_none (by omega)]

theorem pipeline_exact (ct W H : Nat) (hct : Supported ct) (rows : List (List Nat))
    (buf : List Nat) (rows0 : List (List Nat)) (hrows : rows.length = H)
    (hstride : ∀ row ∈ rows, row.length = W * bytesPerPixel ct)
    (hbytes : ∀ row ∈ rows, IsBytes row) (hbuf : buf.length = W * H)
    (hrows0 : rows0.length = H)
    (hstride0 : ∀ row ∈ rows0, row.length = W * bytesPerPixel ct) :
    ∃ out, pipeline ct W H rows buf rows0 = .done out ∧ out.length = H ∧
      (∀ row ∈ out, row.length = bytesPerPixel ct * W) ∧
      (∀ row ∈ out, IsBytes row) ∧
      ∀ y x k, y < H → x < W → k < bytesPerPixel ct →
        byteAt out y (bytesPerPixel ct * x + k)
          = byteAt rows y (bytesPerPixel ct * x + swapIdx ct k) := by
  obtain ⟨out, hrun, hl, hv⟩ := pipeline_spec ct W H hct rows buf rows0 hrows
    (fun row hr => by rw [hstride row hr, Nat.mul_comm]) hbytes hbuf hrows0
    (fun row hr => by rw [hstride0 row hr, Nat.mul_comm])
  have hrow : ∀ row ∈ out, row.length = bytesPerPixel ct * W ∧ IsBytes row := by
    intro row hr
    obtain ⟨y, hy⟩ := List.mem_iff_getElem?.mp hr
    have hyl : y < H := by
      by_contra hc
      rw [List.getElem?_eq_none (by omega)] at hy
      cases hy
    obtain ⟨row0, orow, hr0, horow, hlen, hcell, _⟩ := hv y hyl
    rw [hy] at horow
    cases horow
    have hrl : row.length = bytesPerPixel ct * W := by
      rw [hlen, hstride0 row0 (List.getElem?_mem hr0), Nat.mul_comm]
    refine ⟨hrl, ?_⟩
    intro b hb
    obtain ⟨i, hi⟩ := List.mem_iff_getElem?.mp hb
    have hil : i < bytesPerPixel ct * W := by
      by_contra hc
      rw [List.getElem?_eq_none (by omega)] at hi
      cases hi
    have e : bytesPerPixel ct * (i / bytesPerPixel ct) + i % bytesPerPixel ct = i :=
      Nat.div_add_mod i _
    have hc := hcell (i / bytesPerPixel ct) (i % bytesPerPixel ct)
      (Nat.div_lt_of_lt_mul hil) (Nat.mod_lt i (bytesPerPixel_pos ct))
    rw [e, hi] at hc
    cases hc
    exact byteAt_lt rows y _ hbytes
  refine ⟨out, hrun, hl, fun row hr => (hrow row hr).1, fun row hr => (hrow row hr).2, ?_⟩
  intro y x k hy hx hk
  obtain ⟨_, orow, _, horow, _, hcell, _⟩ := hv y hy
  exact byteAt_of_get out y _ _ orow horow (hcell x k hx hk)

/-- C14. End to end, grayscale: for `height` rows of exactly `width` bytes the read
loop, `process_file` and the write loop in a row end normally and give back the
rows byte for byte. The 1 x 1 image with the byte `7` decodes to `(255,7,7,7)`,
is transformed to `(255,7,7,7)` and encodes to `7`. -/
theorem pipeline_gray_identity (W H : Nat) (rows : List (List Nat)) (buf : List Nat)
    (rows0 : List (List Nat)) (hrows : rows.length = H)
    (hstride : ∀ row ∈ rows, row.length = W) (hbytes : ∀ row ∈ rows, IsBytes row)
    (hbuf : buf.length = W * H) (hrows0 : rows0.length = H)
    (hstride0 : ∀ row ∈ rows0, row.length = W) :
    pipeline PNG_COLOR_TYPE_GRAY W H rows buf rows0 = .done rows ∧
    read_marshal PNG_COLOR_TYPE_GRAY 1 1 [[7]] [0]
      = .done [(255 <<< 24) ||| (7 <<< 16) ||| (7 <<< 8) ||| 7] ∧
    process_file 1 1 [(255 <<< 24) ||| (7 <<< 16) ||| (7 <<< 8) ||| 7]
      = .done [(255 <<< 24) ||| (7 <<< 16) ||| (7 <<< 8) ||| 7] ∧
    write_marshal PNG_COLOR_TYPE_GRAY 1 1 [(255 <<< 24) ||| (7 <<< 16) ||| (7 <<< 8) ||| 7]
      [[0]] = .done [[7]] := by
  refine ⟨?_, by decide, by rfl, by rfl⟩
  obtain ⟨out, hrun, hl, hlen, _, hcell⟩ := pipeline_exact PNG_COLOR_TYPE_GRAY W H
    (Or.inl rfl) rows buf rows0 hrows
    (fun row hr => by rw [hstride row hr, bpp_gray, Nat.mul_one]) hbytes hbuf hrows0
    (fun row hr => by rw [hstride0 row hr, bpp_gray, Nat.mul_one])
  rw [hrun]
  congr 1
  apply rows_eq_of_byteAt 1 W H out rows (by omega) hl hrows
  · intro row hr
    rw [hlen row hr, bpp_gray]
  · intro row hr
    rw [hstride row hr, Nat.one_mul]
  · intro y x k hy hx hk
    have := hcell y x k hy hx (by rw [bpp_gray]; exact hk)
    rw [bpp_gray] at this
    rw [this]
    rfl

/-- Witness of C14: a 2 x 2 grayscale image. -/
theorem pipeline_gray_identity_witness :
    pipeline PNG_COLOR_TYPE_GRAY 2 2 [[7, 200], [0, 255]] [1, 2, 3, 4] [[9, 9], [9, 9]]
      = .done [[7, 200], [0, 255]] :=
  (pipeline_gray_identity 2 2 [[7, 200], [0, 255]] [1, 2, 3, 4] [[9, 9], [9, 9]]
    (by decide) (by decide) (by decide) (by decide) (by decide) (by decide)).1

/-- C20. The pipeline is an involution on rows: for every supported colour type and
`height` rows of exactly `width * bytes-per-pixel` bytes, the read loop,
`process_file` and the write loop run once, and then run again on the rows they
produced, end normally and give back the original rows byte for byte. -/
theorem pipeline_involution (ct W H : Nat) (hct : Supported ct) (rows : List (List Nat))
    (buf buf' : List Nat) (rows0 rows0' : List (List Nat)) (hrows : rows.length = H)
    (hstride : ∀ row ∈ rows, row.length = W * bytesPerPixel ct)
    (hbytes : ∀ row ∈ rows, IsBytes row)
    (hbuf : buf.length = W * H) (hrows0 : rows0.length = H)
    (hstride0 : ∀ row ∈ rows0, row.length = W * bytesPerPixel ct)
    (hbuf' : buf'.length = W * H) (hrows0' : rows0'.length = H)
    (hstride0' : ∀ row ∈ rows0', row.length = W * bytesPerPixel ct) :
    ∃ mid, pipeline ct W H rows buf rows0 = .done mid ∧
      pipeline ct W H mid buf' rows0' = .done rows := by
  obtain ⟨mid, hrun, hl, hlen, hmb, hcell⟩ := pipeline_exact ct W H hct rows buf rows0
    hrows hstride hbytes hbuf hrows0 hstride0
  obtain ⟨out, hrun2, hl2, hlen2, _, hcell2⟩ := pipeline_exact ct W H hct mid buf' rows0'
    hl (fun row hr => by rw [hlen row hr, Nat.mul_comm]) hmb hbuf' hrows0' hstride0'
  refine ⟨mid, hrun, ?_⟩
  rw [hrun2]
  congr 1
  apply rows_eq_of_byteAt (bytesPerPixel ct) W H out rows (bytesPerPixel_pos ct) hl2 hrows
    hlen2 (fun row hr => by rw [hstride row hr, Nat.mul_comm])
  intro y x k hy hx hk
  rw [hcell2 y x k hy hx hk, hcell y x _ hy hx (swapIdx_lt ct k hct hk), swapIdx_twice]

/-- Witness of C20: a 2 x 1 truecolour image, sent through the pipeline twice. -/
theorem pipeline_involution_witness :
    ∃ mid, pipeline PNG_COLOR_TYPE_RGB 2 1 [[10, 20, 30, 40, 50, 60]] [0, 0]
        [[0, 0, 0, 0, 0, 0]] = .done mid ∧
      pipeline PNG_COLOR_TYPE_RGB 2 1 mid [1, 1] [[2, 2, 2, 2, 2, 2]]
        = .done [[10, 20, 30, 40, 50, 60]] :=
  pipeline_involution PNG_COLOR_TYPE_RGB 2 1 (by decide) [[10, 20, 30, 40, 50, 60]]
    [0, 0] [1, 1] [[0, 0, 0, 0, 0, 0]] [[2, 2, 2, 2, 2, 2]]
    (by decide) (by decide) (by decide) (by decide) (by decide) (by decide) (by decide)
    (by decide) (by decide)

/-! ## Encode, then decode: claim C19 -/

theorem pixels_eq_of_cells (W H : Nat) (a b : List Nat) (ha : a.length = W * H)
    (hb : b.length = W * H)
    (h : ∀ x y, x < W → y < H → a[y * W + x]? = b[y * W + x]?) : a = b := by
  apply List.ext_getElem?
  intro i
  by_cases hi : i < W * H
  · obtain ⟨hx, hy, he⟩ := flat_index W H i hi
    have := h _ _ hx hy
    rw [he] at this
    exact this
  · rw [List.getElem?_eq_none (by omega), List.getElem?_eq_none (by omega)]

theorem readback_rgba (W H : Nat) (pix : List Nat) (rows0 : List (List Nat))
    (buf : List Nat) (hpix : pix.length = W * H) (hrows0 : rows0.length = H)
    (hlen0 : ∀ row ∈ rows0, 4 * W ≤ row.length) (hbuf : buf.length = W * H) :
    ∃ rows, write_marshal PNG_COLOR_TYPE_RGBA W H pix rows0 = .done rows ∧
      read_marshal PNG_COLOR_TYPE_RGBA W H rows buf = .done (pix.map fun p =>
        packARGB (laneA p) (laneR p) (laneG p) (laneB p)) := by
  obtain ⟨rows, hw, hl, hlen, hv⟩ := write_rgba_lanes W H pix rows0 hpix hrows0 hlen0
  obtain ⟨s, hs, hsl, hsv⟩ := readLoop_rgba W H rows buf hl hlen hbuf
  refine ⟨rows, hw, ?_⟩
  rw [read_marshal_of_loop PNG_COLOR_TYPE_RGBA W H ⟨true, false⟩ rows buf s rfl hs]
  congr 1
  apply pixels_eq_of_cells W H _ _ hsl (by simp [hpix])
  intro x y hx hy
  obtain ⟨p, hp⟩ := pixel_get W H x y pix hpix hx hy
  obtain ⟨row, hrow, h0, h1, h2, h3⟩ := hv x y p hx hy hp
  rw [hsv x y hx hy, List.getElem?_map, hp, byteAt_of_get rows y _ _ row hrow h0,
    byteAt_of_get rows y _ _ row hrow h1, byteAt_of_get rows y _ _ row hrow h2,
    byteAt_of_get rows y _ _ row hrow h3]
  rfl

theorem readback_rgb (W H : Nat) (pix : List Nat) (rows0 : List (List Nat))
    (buf : List Nat) (hpix : pix.length = W * H) (hrows0 : rows0.length = H)
    (hlen0 : ∀ row ∈ rows0, 3 * W ≤ row.length) (hbuf : buf.length = W * H) :
    ∃ rows, write_marshal PNG_COLOR_TYPE_RGB W H pix rows0 = .done rows ∧
      read_marshal PNG_COLOR_TYPE_RGB W H rows buf = .done (pix.map fun p =>
        packOpaque (laneR p) (laneG p) (laneB p)) := by
  obtain ⟨rows, hw, hl, hlen, hv⟩ := write_rgb_lanes W H pix rows0 hpix hrows0 hlen0
  obtain ⟨s, hs, hsl, hsv⟩ := readLoop_rgb W H rows buf hl hlen hbuf
  refine ⟨rows, hw, ?_⟩
  rw [read_marshal_of_loop PNG_COLOR_TYPE_RGB W H ⟨false, false⟩ rows buf s rfl hs]
  congr 1
  apply pixels_eq_of_cells W H _ _ hsl (by simp [hpix])
  intro x y hx hy
  obtain ⟨p, hp⟩ := pixel_get W H x y pix hpix hx hy
  obtain ⟨row, hrow, h0, h1, h2⟩ := hv x y p hx hy hp
  rw [hsv x y hx hy, List.getElem?_map, hp, byteAt_of_get rows y _ _ row hrow h0,
    byteAt_of_get rows y _ _ row hrow h1, byteAt_of_get rows y _ _ row hrow h2]
  rfl

theorem readback_gray (W H : Nat) (pix : List Nat) (rows0 : List (List Nat))
    (buf : List Nat) (hpix : pix.length = W * H) (hrows0 : rows0.length = H)
    (hlen0 : ∀ row ∈ rows0, W ≤ row.length) (hbuf : buf.length = W * H) :
    ∃ rows, write_marshal PNG_COLOR_TYPE_GRAY W H pix rows0 = .done rows ∧
      read_marshal PNG_COLOR_TYPE_GRAY W H rows buf = .done (pix.map fun p =>
        packOpaque (laneB p) (laneB p) (laneB p)) := by
  obtain ⟨rows, hw, hl, hlen, hv⟩ := write_gray_lanes W H pix rows0 hpix hrows0 hlen0
  obtain ⟨s, hs, hsl, hsv⟩ := readLoop_gray W H rows buf hl hlen hbuf
  refine ⟨rows, hw, ?_⟩
  rw [read_marshal_of_loop PNG_COLOR_TYPE_GRAY W H ⟨false, true⟩ rows buf s rfl hs]
  congr 1
  apply pixels_eq_of_cells W H _ _ hsl (by simp [hpix])
  intro x y hx hy
  obtain ⟨p, hp⟩ := pixel_get W H x y pix hpix hx hy
  obtain ⟨row, hrow, h0⟩ := hv x y p hx hy hp
  rw [hsv x y hx hy, List.getElem?_map, hp, byteAt_of_get rows y _ _ row hrow h0]
  rfl

theorem pixel_lanes_sum (p : Nat) (hp : p < 2 ^ 32) :
    p = laneA p * 16777216 + laneR p * 65536 + laneG p * 256 + laneB p := by
  have hb := lane_lt p
  have h := packARGB_lanes p hp
  rw [packARGB_eq _ _ _ _ hb.1 hb.2.1 hb.2.2.1 hb.2.2.2] at h
  exact h.symm

theorem opaque_fixed_iff (p : Nat) (hp : p < 2 ^ 32) :
    (0xFF000000 ||| (laneR p <<< 16) ||| (laneG p <<< 8) ||| laneB p = p) ↔
      laneA p = 0xFF := by
  have hb := lane_lt p
  have hsum := pixel_lanes_sum p hp
  rw [← packOpaque_raw _ _ _ hb.2.1 hb.2.2.1, packOpaque_eq _ _ _ hb.2.1 hb.2.2.1 hb.2.2.2]
  constructor
  · intro h; omega
  · intro h; omega

theorem gray_fixed_iff (p : Nat) (hp : p < 2 ^ 32) :
    (0xFF000000 ||| (laneB p <<< 16) ||| (laneB p <<< 8) ||| laneB p = p) ↔
      laneA p = 0xFF ∧ laneR p = laneB p ∧ laneG p = laneB p := by
  have hb := lane_lt p
  have hsum := pixel_lanes_sum p hp
  rw [← packOpaque_raw _ _ _ hb.2.2.2 hb.2.2.2]
  constructor
  · intro h
    have hl := lanes_packOpaque (laneB p) (laneB p) (laneB p) hb.2.2.2 hb.2.2.2 hb.2.2.2
    rw [h] at hl
    exact ⟨hl.1, hl.2.1, hl.2.2.1⟩
  · rintro ⟨hA, hR, hG⟩
    rw [packOpaque_eq _ _ _ hb.2.2.2 hb.2.2.2 hb.2.2.2]
    omega

/-- C19. Encode, then decode. With `PNG_COLOR_TYPE_RGBA` the write loop followed by
the read loop gives back every buffer of 32-bit pixels exactly. With
`PNG_COLOR_TYPE_RGB` it gives back each pixel with the alpha lane `0xFF` and the
other lanes unchanged, and with `PNG_COLOR_TYPE_GRAY` the pixel `(0xFF, b, b, b)`
for the blue lane `b`; such a result is the pixel itself exactly when the pixel
already has that form. -/
theorem encode_decode_roundtrip (W H : Nat) (pix : List Nat)
    (rowsA rowsB rowsG : List (List Nat)) (buf : List Nat)
    (hpix : pix.length = W * H) (h32 : ∀ p ∈ pix, p < 2 ^ 32)
    (hA : rowsA.length = H) (hAlen : ∀ row ∈ rowsA, 4 * W ≤ row.length)
    (hB : rowsB.length = H) (hBlen : ∀ row ∈ rowsB, 3 * W ≤ row.length)
    (hG : rowsG.length = H) (hGlen : ∀ row ∈ rowsG, W ≤ row.length)
    (hbuf : buf.length = W * H) :
    (∃ rows, write_marshal PNG_COLOR_TYPE_RGBA W H pix rowsA = .done rows ∧
      read_marshal PNG_COLOR_TYPE_RGBA W H rows buf = .done pix) ∧
    (∃ rows, write_marshal PNG_COLOR_TYPE_RGB W H pix rowsB = .done rows ∧
      read_marshal PNG_COLOR_TYPE_RGB W H rows buf = .done (pix.map fun p =>
        0xFF000000 ||| (laneR p <<< 16) ||| (laneG p <<< 8) ||| laneB p)) ∧
    (∃ rows, write_marshal PNG_COLOR_TYPE_GRAY W H pix rowsG = .done rows ∧
      read_marshal PNG_COLOR_TYPE_GRAY W H rows buf = .done (pix.map fun p =>
        0xFF000000 ||| (laneB p <<< 16) ||| (laneB p <<< 8) ||| laneB p)) ∧
    (∀ p, p < 2 ^ 32 →
      laneA (0xFF000000 ||| (laneR p <<< 16) ||| (laneG p <<< 8) ||| laneB p) = 0xFF ∧
      laneR (0xFF000000 ||| (laneR p <<< 16) ||| (laneG p <<< 8) ||| laneB p) = laneR p ∧
      laneG (0xFF000000 ||| (laneR p <<< 16) ||| (laneG p <<< 8) ||| laneB p) = laneG p ∧
      laneB (0xFF000000 ||| (laneR p <<< 16) ||| (laneG p <<< 8) ||| laneB p) = laneB p ∧
      ((0xFF000000 ||| (laneR p <<< 16) ||| (laneG p <<< 8) ||| laneB p = p) ↔
        laneA p = 0xFF)) ∧
    (∀ p, p < 2 ^ 32 →
      ((0xFF000000 ||| (laneB p <<< 16) ||| (laneB p <<< 8) ||| laneB p = p) ↔
        laneA p = 0xFF ∧ laneR p = laneB p ∧ laneG p = laneB p)) := by
  refine ⟨?_, ?_, ?_, ?_, gray_fixed_iff⟩
  · obtain ⟨rows, hw, hr⟩ := readback_rgba W H pix rowsA buf hpix hA hAlen hbuf
    refine ⟨rows, hw, ?_⟩
    rw [hr]
    congr 1
    calc pix.map (fun p => packARGB (laneA p) (laneR p) (laneG p) (laneB p))
        = pix.map id := List.map_congr_left (fun p hp => packARGB_lanes p (h32 p hp))
      _ = pix := List.map_id pix
  · obtain ⟨rows, hw, hr⟩ := readback_rgb W H pix rowsB buf hpix hB hBlen hbuf
    refine ⟨rows, hw, ?_⟩
    have e : (pix.map fun p => packOpaque (laneR p) (laneG p) (laneB p))
        = pix.map fun p =>
            0xFF000000 ||| (laneR p <<< 16) ||| (laneG p <<< 8) ||| laneB p := by
      apply List.map_congr_left
      intro p _
      exact packOpaque_raw (laneR p) (laneG p) (laneB p) (lane_lt p).2.1 (lane_lt p).2.2.1
    rw [hr, e]
  · obtain ⟨rows, hw, hr⟩ := readback_gray W H pix rowsG buf hpix hG hGlen hbuf
    refine ⟨rows, hw, ?_⟩
    have e : (pix.map fun p => packOpaque (laneB p) (laneB p) (laneB p))
        = pix.map fun p =>
            0xFF000000 ||| (laneB p <<< 16) ||| (laneB p <<< 8) ||| laneB p := by
      apply List.map_congr_left
      intro p _
      exact packOpaque_raw (laneB p) (laneB p) (laneB p) (lane_lt p).2.2.2 (lane_lt p).2.2.2
    rw [hr, e]
  · intro p hp
    have hb := lane_lt p
    have hl := lanes_packOpaque _ _ _ hb.2.1 hb.2.2.1 hb.2.2.2
    rw [packOpaque_raw _ _ _ hb.2.1 hb.2.2.1] at hl
    exact ⟨hl.1, hl.2.1, hl.2.2.1, hl.2.2.2, opaque_fixed_iff p hp⟩

/-- Witness of C19: a 2 x 1 buffer, encoded and decoded in the three colour types. -/
theorem encode_decode_roundtrip_witness :
    (∃ rows, write_marshal PNG_COLOR_TYPE_RGBA 2 1 [0x11223344, 0xFFEEDDCC]
        [[0, 0, 0, 0, 0, 0, 0, 0]] = .done rows ∧
      read_marshal PNG_COLOR_TYPE_RGBA 2 1 rows [0, 0]
        = .done [0x11223344, 0xFFEEDDCC]) ∧
    (∃ rows, write_marshal PNG_COLOR_TYPE_RGB 2 1 [0x11223344, 0xFFEEDDCC]
        [[0, 0, 0, 0, 0, 0]] = .done rows ∧
      read_marshal PNG_COLOR_TYPE_RGB 2 1 rows [0, 0]
        = .done ([0x11223344, 0xFFEEDDCC].map fun p =>
            0xFF000000 ||| (laneR p <<< 16) ||| (laneG p <<< 8) ||| laneB p)) ∧
    (∃ rows, write_marshal PNG_COLOR_TYPE_GRAY 2 1 [0x11223344, 0xFFEEDDCC]
        [[0, 0]] = .done rows ∧
      read_marshal PNG_COLOR_TYPE_GRAY 2 1 rows [0, 0]
        = .done ([0x11223344, 0xFFEEDDCC].map fun p =>
            0xFF000000 ||| (laneB p <<< 16) ||| (laneB p <<< 8) ||| laneB p)) :=
  have h := encode_decode_roundtrip 2 1 [0x11223344, 0xFFEEDDCC] [[0, 0, 0, 0, 0, 0, 0, 0]]
    [[0, 0, 0, 0, 0, 0]] [[0, 0]] [0, 0] (by decide) (by decide) (by decide) (by decide)
    (by decide) (by decide) (by decide) (by decide) (by decide)
  ⟨h.1, h.2.1, h.2.2.1⟩

end PNGExample
